import Mathlib

/-!
# MMHedge: market-making / delta-hedging engine

Shallow embedding of `src/MMHedge.cpp` and the properties of its quote phase
(`update_position`) and settlement phase (`update_returns`).

Modelling conventions.

* The C++ `float` members are read in exact arithmetic: the engine is generic
  in a linearly ordered field `α` (instantiate `ℚ` to evaluate, `ℝ` for the
  statements that involve the real logarithm). Rounding is not modelled.
* The engine never throws and never returns an error code. The one operation
  that can stop it is the integer division by `time_delta` in
  `calc_strat_annualized`: with `time_delta = 0` the process is killed. That
  function and its callers return an `Option`, `none` standing for the killed
  call. A floating-point quotient is written with the field division exactly
  where the source has `/`; statements whose meaning depends on a denominator
  being non-zero carry that as a hypothesis.
* `log` and `sqrt` come from `<math.h>`, not from the repository; they are
  passed in as `MathFns`. `pow` is only called with the exponent `2` and with
  the integer `trades_per_year`, so it is the field power.
* `int` members (`warmup`, `time_delta`) are `Int` holding 32-bit values;
  `float_to_int` keeps the stored `warmup` in the 32-bit range, and the only
  integer arithmetic is `60*60*24*365 / time_delta`, which cannot overflow.
* Member functions that mutate the object return the new object; those that
  both mutate and return a value return a pair.
-/

/-- The two `<math.h>` functions the engine calls that are not field operations. -/
structure MathFns (α : Type) where
  /-- Function `log` of `<math.h>`. -/
  log : α → α
  /-- Function `sqrt` of `<math.h>`. -/
  sqrt : α → α

/-- Global `SECOND_IN_MIN`. -/
def SECOND_IN_MIN : Int := 60
/-- Global `MIN_IN_HOUR`. -/
def MIN_IN_HOUR : Int := 60
/-- Global `HOUR_IN_DAY`. -/
def HOUR_IN_DAY : Int := 24
/-- Global `DAY_IN_YEAR`. -/
def DAY_IN_YEAR : Int := 365
/-- Global `RISK_AVERSION_CO` (declared, never read). -/
def RISK_AVERSION_CO : Int := 2

/-- Global `MIN_ORDER_BOOK_UNFILLED = 0.01`. -/
def MIN_ORDER_BOOK_UNFILLED {α : Type} [LinearOrderedField α] : α := 1 / 100
/-- Global `MAX_ORDER_BOOK_UNFILLED = 0.03`. -/
def MAX_ORDER_BOOK_UNFILLED {α : Type} [LinearOrderedField α] : α := 3 / 100

/-- Struct `TradeSizes`. -/
structure TradeSizes (α : Type) where
  trade_type : String
  bid_size : α
  ask_size : α

/-- Struct `Position`: one quote proposal. -/
structure Position (α : Type) where
  trade_type : String
  volume : α
  price : α
  direction : String

/-- Data members of class `MMHedge`, in declaration order. -/
structure MMHedge (α : Type) where
  perp_value : α
  perp_pos : α
  hedge_pos : α
  cash : α
  opening_oracle_price : α
  oracle_price : α
  maker_fee : α
  warmup : Int
  warmup_risk : α
  time_delta : Int
  order_book_risk_cof : α
  total_order_size : α
  trade_returns : List α
  unfilled_history : List α
  curr_wealth : α
  ask_price : α
  bid_price : α
  num_bids : α
  num_asks : α
  volitility : α
  neg_fund_rate : α
  pos_fund_rate : α
  optimal_perp_delta : α
  inventory_risk : α
  strat_mean : α

/-- Local variables of `MMHedge::update_position` after its call to
`calc_pos_sizes`, together with the object (`self`) at that point. -/
structure QuoteLocals (α : Type) where
  reservation_price : α
  optimal_spread : α
  bid_offer_price : α
  ask_offer_price : α
  total_offer_volume : α
  trade_sizes : TradeSizes α
  self : MMHedge α

/-- Least value of a 32-bit `int`. -/
def INT_MIN : Int := -2147483648
/-- Greatest value of a 32-bit `int`. -/
def INT_MAX : Int := 2147483647

/-- Conversion of a `float` to the 32-bit `int`, as performed by the assignment
`warmup = warmup_` in the constructor: truncation toward zero when the
truncated value fits. When it does not fit the conversion has no defined
result in C++; the value taken is the one the x86-64 conversion instruction
delivers, `INT_MIN`. -/
def float_to_int {α : Type} [LinearOrderedField α] [FloorRing α] (x : α) : Int :=
  let truncated : Int := if 0 ≤ x then ⌊x⌋ else ⌈x⌉
  if INT_MIN ≤ truncated ∧ truncated ≤ INT_MAX then truncated else INT_MIN

namespace MMHedge

variable {α : Type} [LinearOrderedField α]

/-- Method `MMHedge::calc_wealth`. -/
def calc_wealth (s : MMHedge α) : α :=
  let hedge_value :=
    if s.hedge_pos > 0 then
      s.oracle_price * s.hedge_pos
    else
      s.hedge_pos * (s.oracle_price - s.opening_oracle_price) * -1
  s.cash + s.perp_value + hedge_value

/-- Constructor `MMHedge::MMHedge`. The members the constructor body does not
assign (`total_order_size`, the snapshot members, `optimal_perp_delta`,
`inventory_risk`) keep whatever the object storage `mem` held; the two vectors
start empty and `strat_mean` has the default member initialiser `0`. -/
def construct [FloorRing α] (mem : MMHedge α)
    (perp_value_ opening_perp_price_ opening_hedge_pos_ opening_cash_
      opening_oracle_price_ maker_fee_ warmup_ warmup_risk_ : α)
    (time_delta_ : Int) (order_book_risk_cof_ : α) : MMHedge α :=
  let s : MMHedge α :=
    { mem with
      trade_returns := []
      unfilled_history := []
      strat_mean := 0
      perp_value := perp_value_
      perp_pos := opening_perp_price_
      hedge_pos := opening_hedge_pos_
      cash := opening_cash_
      opening_oracle_price := opening_oracle_price_
      oracle_price := opening_oracle_price_
      maker_fee := maker_fee_
      warmup := float_to_int warmup_
      warmup_risk := warmup_risk_
      time_delta := time_delta_
      order_book_risk_cof := order_book_risk_cof_ }
  { s with curr_wealth := s.calc_wealth }

/-- Method `MMHedge::calc_mid_market_price`. -/
def calc_mid_market_price (s : MMHedge α) : α :=
  let total_orders := s.num_bids + s.num_asks
  (s.num_bids * s.bid_price + s.num_asks * s.ask_price) / total_orders

/-- Method `MMHedge::update_optimal_perp_delta`. The product
`neg_fund_rate*time_delta` is a `float`, so the division by
`SECOND_IN_MIN*MIN_IN_HOUR` is a floating-point division. -/
def update_optimal_perp_delta (s : MMHedge α) : MMHedge α :=
  let x := 1 - (s.ask_price + s.bid_price) / (2 * s.oracle_price)
  if x < 0 then
    { s with optimal_perp_delta :=
        s.hedge_pos
          * (x - s.neg_fund_rate * (s.time_delta : α) / ((SECOND_IN_MIN * MIN_IN_HOUR : Int) : α)) }
  else if x > 0 then
    { s with optimal_perp_delta :=
        s.hedge_pos
          * (x + s.pos_fund_rate * (s.time_delta : α) / ((SECOND_IN_MIN * MIN_IN_HOUR : Int) : α)) }
  else
    { s with optimal_perp_delta := 0 }

/-- Method `MMHedge::calc_strat_annualized`. All operands of the quotient are
`int`, so it is the truncating integer division; with `time_delta = 0` the
division kills the process (`none`). -/
def calc_strat_annualized (s : MMHedge α) : Option α :=
  if s.time_delta = 0 then
    none
  else
    let trades_per_year : Int :=
      Int.tdiv (SECOND_IN_MIN * MIN_IN_HOUR * HOUR_IN_DAY * DAY_IN_YEAR) s.time_delta
    some ((1 + s.strat_mean) ^ trades_per_year)

/-- Method `MMHedge::calc_strat_var`. -/
def calc_strat_var (fns : MathFns α) (s : MMHedge α) : α :=
  let accum := s.trade_returns.foldl (fun acc trade => acc + (s.strat_mean - trade) ^ 2) 0
  fns.sqrt (accum / (s.trade_returns.length : α) - 1)

/-- Method `MMHedge::update_inventory_risk`; `none` when the call to
`calc_strat_annualized` is killed. -/
def update_inventory_risk (fns : MathFns α) (s : MMHedge α) : Option (MMHedge α) :=
  if (s.trade_returns.length : α) > (s.warmup : α) then
    s.calc_strat_annualized.map fun strat_annualized =>
      { s with inventory_risk := strat_annualized / (2 * (s.calc_strat_var fns) ^ 2) }
  else
    some { s with inventory_risk := s.warmup_risk }

/-- Method `MMHedge::calc_reservation_price`: returns the price and the
updated object; `none` when `update_inventory_risk` is killed. -/
def calc_reservation_price (fns : MathFns α) (s : MMHedge α) : Option (α × MMHedge α) :=
  let mid_market_price := s.calc_mid_market_price
  let s1 := s.update_optimal_perp_delta
  (s1.update_inventory_risk fns).map fun s2 =>
    (mid_market_price - s2.optimal_perp_delta * s2.inventory_risk * s2.volitility, s2)

/-- Method `MMHedge::calc_mean`; `std::reduce` without an initial value sums
from `0`. -/
def calc_mean (vec : List α) : α :=
  if vec.isEmpty then
    0
  else
    let count : α := (vec.length : α)
    vec.sum / count

/-- Method `MMHedge::update_order_book_risk`. -/
def update_order_book_risk (s : MMHedge α) : MMHedge α :=
  if (s.unfilled_history.length : α) > (s.warmup : α) then
    let mean_unfilled := calc_mean s.unfilled_history
    if mean_unfilled > MAX_ORDER_BOOK_UNFILLED then
      { s with order_book_risk_cof := s.order_book_risk_cof + 1 / 100 }
    else if mean_unfilled < MIN_ORDER_BOOK_UNFILLED then
      { s with order_book_risk_cof := s.order_book_risk_cof - 1 / 100 }
    else
      s
  else
    s

/-- Method `MMHedge::calc_spread`: returns the spread and the updated object. -/
def calc_spread (fns : MathFns α) (s : MMHedge α) : α × MMHedge α :=
  let s1 := s.update_order_book_risk
  let gamma_sig := s1.inventory_risk * s1.volitility ^ 2
  let gamma_log :=
    fns.log (1 + s1.inventory_risk / s1.order_book_risk_cof) * 2 / s1.inventory_risk
  (gamma_sig + gamma_log, s1)

/-- Method `MMHedge::calc_total_offer`; `std::min` over the three-element
initialiser list. -/
def calc_total_offer (s : MMHedge α) (reservation_price : α) : α :=
  let risk_cat :=
    min (min s.cash (s.num_asks * reservation_price)) (s.num_bids * reservation_price)
  s.inventory_risk * risk_cat

/-- Method `MMHedge::calc_pos_sizes`. The call `abs(optimal_perp_delta)` has a
`float` argument and resolves to the floating-point overload, the absolute
value of the field. -/
def calc_pos_sizes (s : MMHedge α)
    (total_offer_volume bid_offer_price ask_offer_price : α) : TradeSizes α :=
  let trade_sizes : TradeSizes α :=
    { bid_size := total_offer_volume / 2 + s.optimal_perp_delta
      ask_size := total_offer_volume / 2 - s.optimal_perp_delta
      trade_type := "no_trade" }
  if |s.optimal_perp_delta| > total_offer_volume then
    if s.optimal_perp_delta > 0 then
      { trade_sizes with
        trade_type := "market", bid_size := s.optimal_perp_delta, ask_size := 0 }
    else
      { trade_sizes with
        trade_type := "market", ask_size := |s.optimal_perp_delta|, bid_size := 0 }
  else if ask_offer_price - bid_offer_price > s.maker_fee then
    { trade_sizes with trade_type := "limit" }
  else if |s.optimal_perp_delta| > 0 then
    if s.optimal_perp_delta > 0 then
      { trade_sizes with trade_type := "limit", ask_size := 0 }
    else
      { trade_sizes with trade_type := "limit", bid_size := 0 }
  else
    trade_sizes

/-- The nine member assignments that open `MMHedge::update_position`
(source lines 275-283): the snapshot arguments overwrite the stored snapshot. -/
def load_snapshot (s : MMHedge α)
    (oracle_price_ ask_price_ bid_price_ num_bids_ num_asks_ perp_pos_
      volitility_ neg_fund_rate_ pos_fund_rate_ : α) : MMHedge α :=
  { s with
    oracle_price := oracle_price_
    ask_price := ask_price_
    bid_price := bid_price_
    num_bids := num_bids_
    num_asks := num_asks_
    perp_pos := perp_pos_
    volitility := volitility_
    neg_fund_rate := neg_fund_rate_
    pos_fund_rate := pos_fund_rate_ }

/-- Method `MMHedge::update_position`, source lines 285-296: the values of
its local variables once `calc_pos_sizes` has returned, with the object as the
in-place updates left it; `none` when `calc_reservation_price` is killed. -/
def update_position_locals (fns : MathFns α) (s : MMHedge α)
    (oracle_price_ ask_price_ bid_price_ num_bids_ num_asks_ perp_pos_
      volitility_ neg_fund_rate_ pos_fund_rate_ : α) : Option (QuoteLocals α) :=
  let s0 := s.load_snapshot oracle_price_ ask_price_ bid_price_ num_bids_ num_asks_ perp_pos_
    volitility_ neg_fund_rate_ pos_fund_rate_
  (s0.calc_reservation_price fns).map fun r =>
    let reservation_price := r.1
    let sp := r.2.calc_spread fns
    let optimal_spread := sp.1
    let s1 := sp.2
    let bid_offer_price := reservation_price - optimal_spread / 2
    let ask_offer_price := reservation_price + optimal_spread / 2
    let total_offer_volume := s1.calc_total_offer reservation_price
    let trade_sizes := s1.calc_pos_sizes total_offer_volume bid_offer_price ask_offer_price
    { reservation_price := reservation_price
      optimal_spread := optimal_spread
      bid_offer_price := bid_offer_price
      ask_offer_price := ask_offer_price
      total_offer_volume := total_offer_volume
      trade_sizes := trade_sizes
      self := s1 }

/-- Method `MMHedge::update_position` (quote phase): returns the vector
`{short_position, long_position}` and the updated object; `none` when the call
is killed before it returns. -/
def update_position (fns : MathFns α) (s : MMHedge α)
    (oracle_price_ ask_price_ bid_price_ num_bids_ num_asks_ perp_pos_
      volitility_ neg_fund_rate_ pos_fund_rate_ : α) :
    Option (List (Position α) × MMHedge α) :=
  (s.update_position_locals fns oracle_price_ ask_price_ bid_price_ num_bids_ num_asks_
    perp_pos_ volitility_ neg_fund_rate_ pos_fund_rate_).map fun l =>
    let short_position : Position α :=
      { trade_type := l.trade_sizes.trade_type
        volume := l.trade_sizes.ask_size
        price := l.ask_offer_price
        direction := "short" }
    let long_position : Position α :=
      { trade_type := l.trade_sizes.trade_type
        volume := l.trade_sizes.bid_size
        price := l.bid_offer_price
        direction := "long" }
    ([short_position, long_position], l.self)

/-- Method `MMHedge::update_trade_returns`. -/
def update_trade_returns (s : MMHedge α) : MMHedge α :=
  let new_wealth := s.calc_wealth
  let trade_return := (new_wealth - s.curr_wealth) / s.curr_wealth
  { s with
    curr_wealth := new_wealth
    strat_mean :=
      (s.strat_mean * (s.trade_returns.length : α) + trade_return)
        / ((s.trade_returns.length : α) + 1)
    trade_returns := s.trade_returns ++ [trade_return] }

/-- Method `MMHedge::update_returns` (settlement phase). -/
def update_returns (s : MMHedge α) (unfilled_perp_size perp_value_ cash_ : α) : MMHedge α :=
  let s0 : MMHedge α := { s with perp_value := perp_value_, cash := cash_ }
  let pct_unfilled := unfilled_perp_size / s0.total_order_size
  let s1 : MMHedge α := { s0 with unfilled_history := s0.unfilled_history ++ [pct_unfilled] }
  s1.update_trade_returns

/-- Method `MMHedge::get_time_delta`. -/
def get_time_delta (s : MMHedge α) : Int :=
  s.time_delta

/-- One call of a mutating public method by the external driver. -/
inductive Call (α : Type) where
  | update_position (oracle_price_ ask_price_ bid_price_ num_bids_ num_asks_ perp_pos_
      volitility_ neg_fund_rate_ pos_fund_rate_ : α)
  | update_returns (unfilled_perp_size perp_value_ cash_ : α)

/-- The object after one call (the proposals of a quote are dropped); `none`
when the call is killed. -/
def step (fns : MathFns α) (s : MMHedge α) : Call α → Option (MMHedge α)
  | .update_position o a b nb na pp v nf pf =>
    (s.update_position fns o a b nb na pp v nf pf).map Prod.snd
  | .update_returns u pv c => some (s.update_returns u pv c)

/-- The object after a sequence of calls, oldest first; `none` when one of the
calls is killed. -/
def run (fns : MathFns α) (s : MMHedge α) : List (Call α) → Option (MMHedge α)
  | [] => some s
  | c :: cs => (step fns s c).bind fun s1 => run fns s1 cs

/-- Number of settlements (`update_returns` calls) in a sequence of calls. -/
def settlements : List (Call α) → Nat
  | [] => 0
  | .update_position .. :: cs => settlements cs
  | .update_returns .. :: cs => settlements cs + 1

/-- Object storage used by the worked examples: every member zero, both
vectors empty. -/
def zero_mem (α : Type) [LinearOrderedField α] : MMHedge α :=
  { perp_value := 0, perp_pos := 0, hedge_pos := 0, cash := 0, opening_oracle_price := 0
    oracle_price := 0, maker_fee := 0, warmup := 0, warmup_risk := 0, time_delta := 0
    order_book_risk_cof := 0, total_order_size := 0, trade_returns := []
    unfilled_history := [], curr_wealth := 0, ask_price := 0, bid_price := 0, num_bids := 0
    num_asks := 0, volitility := 0, neg_fund_rate := 0, pos_fund_rate := 0
    optimal_perp_delta := 0, inventory_risk := 0, strat_mean := 0 }

/-- Example object for the sizing branch: `optimal_perp_delta = 3`, fee `0`. -/
def sizing_example (α : Type) [LinearOrderedField α] : MMHedge α :=
  { zero_mem α with optimal_perp_delta := 3 }

/-- Example object for a settlement: cash `2`, hedge `3` at oracle price `100`,
recorded wealth `302`, order size `4`. -/
def settle_example (α : Type) [LinearOrderedField α] : MMHedge α :=
  { zero_mem α with
    cash := 2
    hedge_pos := 3
    oracle_price := 100
    curr_wealth := 302
    total_order_size := 4 }

/-- Example engine for the quote phase, built by the constructor: hedge
position `3`, cash `2`, opening oracle price `100`, maker fee `0`, warmup `0`,
warmup risk `1`, cycle of `60` seconds, order-book risk coefficient `1`. -/
def quote_example (α : Type) [LinearOrderedField α] [FloorRing α] : MMHedge α :=
  construct (zero_mem α) 0 0 3 2 100 0 0 1 60 1

/-- The engine `quote_example` whose unassigned member `total_order_size`
holds `t`. -/
def order_size_example (α : Type) [LinearOrderedField α] [FloorRing α] (t : α) : MMHedge α :=
  { quote_example α with total_order_size := t }

/-- Example snapshot for the mid-market price: three bids at `100`, one ask at
`104` (oracle price `100`). -/
def mid_example (α : Type) [LinearOrderedField α] : MMHedge α :=
  (zero_mem α).load_snapshot 100 104 100 3 1 0 0 0 0

/-- Example object for the limit branches: `optimal_perp_delta = 1`, maker fee
`1`. -/
def limit_example (α : Type) [LinearOrderedField α] : MMHedge α :=
  { zero_mem α with
    optimal_perp_delta := 1
    maker_fee := 1 }

/-- Example object for the perp delta: hedge `2`, oracle price `100`, ask and
bid `101`, negative funding rate `9/25`, cycle of `100` seconds. -/
def delta_example (α : Type) [LinearOrderedField α] : MMHedge α :=
  { zero_mem α with
    hedge_pos := 2
    oracle_price := 100
    ask_price := 101
    bid_price := 101
    neg_fund_rate := 9 / 25
    time_delta := 100 }

/-- Fresh engine of the round-trip scenario, built by the constructor: cash
`1000`, perp value `0`, hedge position `0`, opening oracle price `100`, maker
fee `0`, warmup `0`, cycle of `60` seconds, with the given warmup risk and
order-book risk coefficient. -/
def round_trip_example (α : Type) [LinearOrderedField α] [FloorRing α]
    (warmup_risk_ order_book_risk_cof_ : α) : MMHedge α :=
  construct (zero_mem α) 0 0 0 1000 100 0 0 warmup_risk_ 60 order_book_risk_cof_

/-- Example engine for the annualised return: built by the constructor with
cash `1`, opening oracle price `1`, warmup `0`, warmup risk `1`, a cycle of
`21024000` seconds (two thirds of a year) and coefficient `1`, its unassigned
`total_order_size` holding `1`; then settled twice, with cash `6` and with
cash `12`, so that the recorded returns are `5` and `1`. -/
def annualized_example (α : Type) [LinearOrderedField α] [FloorRing α] : MMHedge α :=
  (((construct { zero_mem α with total_order_size := 1 }
    0 0 0 1 1 0 0 1 21024000 1).update_returns 0 0 6).update_returns 0 0 12)

/-- Example engine for a killed quote: the engine `settle_example` with a
cycle of `0` seconds (warmup `0`, no recorded return yet). -/
def zero_cycle_example (α : Type) [LinearOrderedField α] : MMHedge α :=
  { settle_example α with time_delta := 0 }

/-! ## Frame lemmas for the quote phase -/

/-- Members `update_optimal_perp_delta` does not touch. -/
theorem update_optimal_perp_delta_frame (s : MMHedge α) :
    s.update_optimal_perp_delta = { s with
      optimal_perp_delta := s.update_optimal_perp_delta.optimal_perp_delta } := by
  unfold update_optimal_perp_delta
  dsimp only
  split_ifs <;> rfl

/-- Members `update_inventory_risk` does not touch, when it returns. -/
theorem update_inventory_risk_frame (fns : MathFns α) (s s2 : MMHedge α)
    (h : s.update_inventory_risk fns = some s2) :
    s2 = { s with inventory_risk := s2.inventory_risk } := by
  unfold update_inventory_risk at h
  split_ifs at h
  · obtain ⟨a, -, rfl⟩ := Option.map_eq_some'.mp h
    rfl
  · cases h
    rfl

/-- When `update_inventory_risk` returns: it is killed exactly when the number
of returns exceeds the warmup and `time_delta = 0`. -/
theorem update_inventory_risk_returns_iff (fns : MathFns α) (s : MMHedge α) :
    (∃ s2, s.update_inventory_risk fns = some s2) ↔
      ¬ ((s.trade_returns.length : α) > (s.warmup : α) ∧ s.time_delta = 0) := by
  unfold update_inventory_risk calc_strat_annualized
  by_cases hw : (s.trade_returns.length : α) > (s.warmup : α)
  · by_cases ht : s.time_delta = 0
    · rw [if_pos hw, if_pos ht]
      exact iff_of_false (fun ⟨s2, hs2⟩ => Option.noConfusion hs2) (fun hc => hc ⟨hw, ht⟩)
    · rw [if_pos hw, if_neg ht]
      exact iff_of_true ⟨_, rfl⟩ (fun hc => ht hc.2)
  · rw [if_neg hw]
    exact iff_of_true ⟨_, rfl⟩ (fun hc => hw hc.1)

/-- Members `update_order_book_risk` does not touch. -/
theorem update_order_book_risk_frame (s : MMHedge α) :
    s.update_order_book_risk = { s with
      order_book_risk_cof := s.update_order_book_risk.order_book_risk_cof } := by
  unfold update_order_book_risk
  dsimp only
  split_ifs <;> rfl

/-- The locals of a returning `update_position`, in terms of the object `s2`
that `update_inventory_risk` returned on the loaded snapshot. -/
theorem update_position_locals_eq_some (fns : MathFns α) (s : MMHedge α)
    (o a b nb na pp v nf pf : α) (l : QuoteLocals α)
    (hl : s.update_position_locals fns o a b nb na pp v nf pf = some l) :
    ∃ s2 : MMHedge α,
      ((s.load_snapshot o a b nb na pp v nf pf).update_optimal_perp_delta).update_inventory_risk
          fns = some s2 ∧
        l.self = s2.update_order_book_risk ∧
        l.reservation_price
          = (s.load_snapshot o a b nb na pp v nf pf).calc_mid_market_price
            - s2.optimal_perp_delta * s2.inventory_risk * s2.volitility ∧
        l.optimal_spread = (s2.calc_spread fns).1 ∧
        l.bid_offer_price = l.reservation_price - l.optimal_spread / 2 ∧
        l.ask_offer_price = l.reservation_price + l.optimal_spread / 2 ∧
        l.total_offer_volume = l.self.calc_total_offer l.reservation_price ∧
        l.trade_sizes
          = l.self.calc_pos_sizes l.total_offer_volume l.bid_offer_price l.ask_offer_price := by
  unfold update_position_locals at hl
  obtain ⟨r, hr, rfl⟩ := Option.map_eq_some'.mp hl
  unfold calc_reservation_price at hr
  obtain ⟨s2, hs2, rfl⟩ := Option.map_eq_some'.mp hr
  exact ⟨s2, hs2, rfl, rfl, rfl, rfl, rfl, rfl, rfl⟩

/-- A returning `update_position` comes from returning locals: the vector is
the short proposal followed by the long one, both built from the same sizes,
and the returned object is the one the locals hold. -/
theorem update_position_eq_some (fns : MathFns α) (s : MMHedge α)
    (o a b nb na pp v nf pf : α) (out : List (Position α) × MMHedge α)
    (ho : s.update_position fns o a b nb na pp v nf pf = some out) :
    ∃ l : QuoteLocals α,
      s.update_position_locals fns o a b nb na pp v nf pf = some l ∧
        out.1 = [⟨l.trade_sizes.trade_type, l.trade_sizes.ask_size, l.ask_offer_price, "short"⟩,
          ⟨l.trade_sizes.trade_type, l.trade_sizes.bid_size, l.bid_offer_price, "long"⟩] ∧
        out.2 = l.self := by
  unfold update_position at ho
  obtain ⟨l, hl, rfl⟩ := Option.map_eq_some'.mp ho
  exact ⟨l, hl, rfl, rfl⟩

/-- The object a returning `update_position` hands back is the loaded snapshot
after the three in-place updates. -/
theorem update_position_snd (fns : MathFns α) (s : MMHedge α)
    (o a b nb na pp v nf pf : α) (out : List (Position α) × MMHedge α)
    (ho : s.update_position fns o a b nb na pp v nf pf = some out) :
    ∃ s2 : MMHedge α,
      ((s.load_snapshot o a b nb na pp v nf pf).update_optimal_perp_delta).update_inventory_risk
          fns = some s2 ∧
        out.2 = s2.update_order_book_risk := by
  obtain ⟨l, hl, -, hself⟩ := update_position_eq_some fns s o a b nb na pp v nf pf out ho
  obtain ⟨s2, hs2, hl2, -⟩ := update_position_locals_eq_some fns s o a b nb na pp v nf pf l hl
  exact ⟨s2, hs2, hself.trans hl2⟩

/-- The object after a returning `update_position`: only the nine snapshot
members, `optimal_perp_delta`, `inventory_risk` and `order_book_risk_cof` are
written. -/
theorem update_position_frame (fns : MathFns α) (s : MMHedge α)
    (o a b nb na pp v nf pf : α) (out : List (Position α) × MMHedge α)
    (ho : s.update_position fns o a b nb na pp v nf pf = some out) :
    out.2 = { s with
      oracle_price := o, ask_price := a, bid_price := b, num_bids := nb, num_asks := na
      perp_pos := pp, volitility := v, neg_fund_rate := nf, pos_fund_rate := pf
      optimal_perp_delta := out.2.optimal_perp_delta
      inventory_risk := out.2.inventory_risk
      order_book_risk_cof := out.2.order_book_risk_cof } := by
  obtain ⟨s2, hs2, hout⟩ := update_position_snd fns s o a b nb na pp v nf pf out ho
  have h2 := update_inventory_risk_frame fns _ s2 hs2
  rw [hout, update_order_book_risk_frame, h2, update_optimal_perp_delta_frame]
  rfl

/-- When `update_position` returns: for every snapshot, it is killed exactly
when the number of recorded returns exceeds the warmup and `time_delta = 0`. -/
theorem update_position_returns_iff (fns : MathFns α) (s : MMHedge α)
    (o a b nb na pp v nf pf : α) :
    (∃ out, s.update_position fns o a b nb na pp v nf pf = some out) ↔
      ¬ ((s.trade_returns.length : α) > (s.warmup : α) ∧ s.time_delta = 0) := by
  have hiff := update_inventory_risk_returns_iff fns
    ((s.load_snapshot o a b nb na pp v nf pf).update_optimal_perp_delta)
  have h1 : ((s.load_snapshot o a b nb na pp v nf pf).update_optimal_perp_delta).trade_returns
      = s.trade_returns := by rw [update_optimal_perp_delta_frame]; rfl
  have h2 : ((s.load_snapshot o a b nb na pp v nf pf).update_optimal_perp_delta).warmup
      = s.warmup := by rw [update_optimal_perp_delta_frame]; rfl
  have h3 : ((s.load_snapshot o a b nb na pp v nf pf).update_optimal_perp_delta).time_delta
      = s.time_delta := by rw [update_optimal_perp_delta_frame]; rfl
  rw [h1, h2, h3] at hiff
  rw [← hiff]
  constructor
  · rintro ⟨out, ho⟩
    obtain ⟨s2, hs2, -⟩ := update_position_snd fns s o a b nb na pp v nf pf out ho
    exact ⟨s2, hs2⟩
  · rintro ⟨s2, hs2⟩
    unfold update_position update_position_locals calc_reservation_price
    dsimp only
    rw [hs2]
    exact ⟨_, rfl⟩

/-! ## Valuation -/

/-- C10: `calc_wealth` returns `cash + perp_value + hedgeValue`, where
`hedgeValue` is `oracle_price * hedge_pos` when `hedge_pos > 0` and
`-hedge_pos * (oracle_price - opening_oracle_price)` otherwise; with
`hedge_pos = 0` it is `cash + perp_value` for every `oracle_price` and
`opening_oracle_price`. -/
theorem calc_wealth_spec (s : MMHedge α) :
    s.calc_wealth = s.cash + s.perp_value +
        (if s.hedge_pos > 0 then s.oracle_price * s.hedge_pos
         else -s.hedge_pos * (s.oracle_price - s.opening_oracle_price)) ∧
      ∀ oracle opening : α,
        ({ s with hedge_pos := 0, oracle_price := oracle,
                  opening_oracle_price := opening } : MMHedge α).calc_wealth
          = s.cash + s.perp_value := by
  constructor
  · unfold calc_wealth
    split_ifs <;> ring
  · intro oracle opening
    simp [calc_wealth]

/-! ## Position sizing -/

/-- C4: branch priority of `calc_pos_sizes`. When `|optimal_perp_delta|`
exceeds `total_offer_volume` the classification is "market" for every bid/ask
offer price and `maker_fee`; a positive delta puts `optimal_perp_delta` on the
bid side and zero on the ask side, a negative delta puts `|optimal_perp_delta|`
on the ask side and zero on the bid side, and in every case one side carries
`|optimal_perp_delta|` and the other is zero. -/
theorem calc_pos_sizes_market_priority (s : MMHedge α)
    (total_offer_volume bid_offer_price ask_offer_price : α)
    (h : |s.optimal_perp_delta| > total_offer_volume) :
    (s.calc_pos_sizes total_offer_volume bid_offer_price ask_offer_price).trade_type = "market" ∧
      (0 < s.optimal_perp_delta →
        (s.calc_pos_sizes total_offer_volume bid_offer_price ask_offer_price).bid_size
            = s.optimal_perp_delta ∧
          (s.calc_pos_sizes total_offer_volume bid_offer_price ask_offer_price).ask_size = 0) ∧
      (s.optimal_perp_delta < 0 →
        (s.calc_pos_sizes total_offer_volume bid_offer_price ask_offer_price).ask_size
            = |s.optimal_perp_delta| ∧
          (s.calc_pos_sizes total_offer_volume bid_offer_price ask_offer_price).bid_size = 0) ∧
      (((s.calc_pos_sizes total_offer_volume bid_offer_price ask_offer_price).bid_size
            = |s.optimal_perp_delta| ∧
          (s.calc_pos_sizes total_offer_volume bid_offer_price ask_offer_price).ask_size = 0) ∨
        ((s.calc_pos_sizes total_offer_volume bid_offer_price ask_offer_price).ask_size
            = |s.optimal_perp_delta| ∧
          (s.calc_pos_sizes total_offer_volume bid_offer_price ask_offer_price).bid_size = 0)) := by
  unfold calc_pos_sizes
  dsimp only
  rw [if_pos h]
  by_cases hpos : s.optimal_perp_delta > 0
  · rw [if_pos hpos]
    exact ⟨rfl, fun _ => ⟨rfl, rfl⟩, fun hneg => absurd hpos (not_lt.mpr hneg.le),
      Or.inl ⟨(abs_of_pos hpos).symm, rfl⟩⟩
  · rw [if_neg hpos]
    exact ⟨rfl, fun hp => absurd hp hpos, fun _ => ⟨rfl, rfl⟩, Or.inr ⟨rfl, rfl⟩⟩

/-- Witness for C4: delta `3` against a total offer volume of `1`, with an
offer spread of `10` above a maker fee of `0`. -/
theorem calc_pos_sizes_market_priority_witness :
    |(sizing_example ℚ).optimal_perp_delta| > 1 ∧
      (10 : ℚ) - 0 > (sizing_example ℚ).maker_fee ∧
      ((sizing_example ℚ).calc_pos_sizes 1 0 10).trade_type = "market" ∧
      ((sizing_example ℚ).calc_pos_sizes 1 0 10).bid_size = 3 ∧
      ((sizing_example ℚ).calc_pos_sizes 1 0 10).ask_size = 0 :=
  have hd : |(sizing_example ℚ).optimal_perp_delta| > 1 := by
    norm_num [sizing_example, zero_mem]
  have h := calc_pos_sizes_market_priority (sizing_example ℚ) 1 0 10 hd
  have hp : 0 < (sizing_example ℚ).optimal_perp_delta := by
    norm_num [sizing_example, zero_mem]
  ⟨hd, by norm_num [sizing_example, zero_mem], h.1, (h.2.1 hp).1, (h.2.1 hp).2⟩

/-! ## Settlement phase -/

/-- C7: postcondition of `update_returns(u, pv, c)` on a state with
`curr_wealth ≠ 0` and `total_order_size ≠ 0`: `cash = c`, `perp_value = pv`,
`unfilled_history` gains `u / total_order_size`, `trade_returns` gains
`r = (W1 - W) / W` with `W` the old `curr_wealth` and `W1` the wealth computed
with the new cash and perp value, `strat_mean` becomes
`(old strat_mean * n + r) / (n + 1)` with `n` the old number of returns, and
`curr_wealth` becomes `W1`. -/
theorem update_returns_post (s : MMHedge α) (u pv c : α)
    (_hW : s.curr_wealth ≠ 0) (_hT : s.total_order_size ≠ 0) :
    (s.update_returns u pv c).cash = c ∧
      (s.update_returns u pv c).perp_value = pv ∧
      (s.update_returns u pv c).unfilled_history
        = s.unfilled_history ++ [u / s.total_order_size] ∧
      (s.update_returns u pv c).trade_returns
        = s.trade_returns ++
            [(({ s with perp_value := pv, cash := c } : MMHedge α).calc_wealth - s.curr_wealth)
              / s.curr_wealth] ∧
      (s.update_returns u pv c).strat_mean
        = (s.strat_mean * (s.trade_returns.length : α)
            + (({ s with perp_value := pv, cash := c } : MMHedge α).calc_wealth - s.curr_wealth)
              / s.curr_wealth)
          / ((s.trade_returns.length : α) + 1) ∧
      (s.update_returns u pv c).curr_wealth
        = ({ s with perp_value := pv, cash := c } : MMHedge α).calc_wealth :=
  ⟨rfl, rfl, rfl, rfl, rfl, rfl⟩

/-- Witness for C7: wealth `302` (cash `2`, hedge `3` at oracle `100`), order
size `4`, settled with `u = 1`, `pv = 0`, `c = 3`: the new wealth is `303` and
the recorded return `1/302`. -/
theorem update_returns_post_witness :
    (settle_example ℚ).curr_wealth ≠ 0 ∧
      (settle_example ℚ).total_order_size ≠ 0 ∧
      ((settle_example ℚ).update_returns 1 0 3).unfilled_history = [1 / 4] ∧
      ((settle_example ℚ).update_returns 1 0 3).trade_returns = [1 / 302] ∧
      ((settle_example ℚ).update_returns 1 0 3).strat_mean = 1 / 302 ∧
      ((settle_example ℚ).update_returns 1 0 3).curr_wealth = 303 := by
  have hW : (settle_example ℚ).curr_wealth ≠ 0 := by norm_num [settle_example, zero_mem]
  have hT : (settle_example ℚ).total_order_size ≠ 0 := by norm_num [settle_example, zero_mem]
  obtain ⟨-, -, h3, h4, h5, h6⟩ := update_returns_post (settle_example ℚ) 1 0 3 hW hT
  refine ⟨hW, hT, ?_, ?_, ?_, ?_⟩
  · rw [h3]; simp [settle_example, zero_mem]
  · rw [h4]; norm_num [settle_example, zero_mem, calc_wealth]
  · rw [h5]; norm_num [settle_example, zero_mem, calc_wealth]
  · rw [h6]; norm_num [settle_example, zero_mem, calc_wealth]

/-- A quote returns whenever the cycle length is not zero. -/
theorem update_position_returns_of_time_delta (fns : MathFns α) (s : MMHedge α)
    (o a b nb na pp v nf pf : α) (h : s.time_delta ≠ 0) :
    ∃ out, s.update_position fns o a b nb na pp v nf pf = some out :=
  (update_position_returns_iff fns s o a b nb na pp v nf pf).mpr (fun hc => h hc.2)

/-- C8: a returning `update_position` does not write `curr_wealth`, and leaves
`trade_returns`, `unfilled_history`, `strat_mean`, `cash` and `perp_value`
unchanged as well, although it overwrites `oracle_price`, which `calc_wealth`
reads. -/
theorem update_position_preserves_wealth (fns : MathFns α) (s : MMHedge α)
    (o a b nb na pp v nf pf : α) (out : List (Position α) × MMHedge α)
    (ho : s.update_position fns o a b nb na pp v nf pf = some out) :
    out.2.curr_wealth = s.curr_wealth ∧
      out.2.trade_returns = s.trade_returns ∧
      out.2.unfilled_history = s.unfilled_history ∧
      out.2.strat_mean = s.strat_mean ∧
      out.2.cash = s.cash ∧
      out.2.perp_value = s.perp_value ∧
      out.2.oracle_price = o := by
  rw [update_position_frame fns s o a b nb na pp v nf pf out ho]
  exact ⟨rfl, rfl, rfl, rfl, rfl, rfl, rfl⟩

/-- Witness for C8: the engine `quote_example` (wealth `302`, opening oracle
price `100`) quoting at oracle price `101` returns, keeps its recorded wealth
and stores the new oracle price. -/
theorem update_position_preserves_wealth_witness :
    ∃ out, (quote_example ℝ).update_position ⟨Real.log, Real.sqrt⟩
        101 50 50 1 1 0 0 0 0 = some out ∧
      out.2.curr_wealth = (quote_example ℝ).curr_wealth ∧
      out.2.cash = (quote_example ℝ).cash ∧
      out.2.oracle_price = 101 := by
  obtain ⟨out, ho⟩ := update_position_returns_of_time_delta ⟨Real.log, Real.sqrt⟩
    (quote_example ℝ) 101 50 50 1 1 0 0 0 0 (by decide)
  have h := update_position_preserves_wealth ⟨Real.log, Real.sqrt⟩ (quote_example ℝ)
    101 50 50 1 1 0 0 0 0 out ho
  exact ⟨out, ho, h.1, h.2.2.2.2.1, h.2.2.2.2.2.2⟩


/-! ## Histories along a run -/

/-- Value of `calc_mean` on a vector with one more element. -/
theorem calc_mean_append_singleton (vec : List α) (x : α) :
    calc_mean (vec ++ [x]) = (vec.sum + x) / ((vec.length : α) + 1) := by
  unfold calc_mean
  have hne : (vec ++ [x]).isEmpty = false := by
    cases vec <;> rfl
  rw [hne]
  simp

/-- The running product `calc_mean vec * size` is the sum of the vector. -/
theorem calc_mean_mul_length (vec : List α) :
    calc_mean vec * (vec.length : α) = vec.sum := by
  unfold calc_mean
  cases vec with
  | nil => simp
  | cons x xs =>
    have hlen : ((x :: xs).length : α) ≠ 0 := by
      simp only [List.length_cons]
      exact_mod_cast Nat.succ_ne_zero xs.length
    simp only [List.isEmpty_cons, Bool.false_eq_true, if_false]
    exact div_mul_cancel₀ _ hlen

/-- One settlement keeps `strat_mean` equal to `calc_mean trade_returns`. -/
theorem update_returns_mean (s : MMHedge α) (u pv c : α)
    (h : s.strat_mean = calc_mean s.trade_returns) :
    (s.update_returns u pv c).strat_mean = calc_mean (s.update_returns u pv c).trade_returns := by
  have hs : (s.update_returns u pv c).strat_mean
      = (s.strat_mean * (s.trade_returns.length : α)
          + (({ s with perp_value := pv, cash := c } : MMHedge α).calc_wealth - s.curr_wealth)
            / s.curr_wealth) / ((s.trade_returns.length : α) + 1) := rfl
  have ht : (s.update_returns u pv c).trade_returns
      = s.trade_returns ++
          [(({ s with perp_value := pv, cash := c } : MMHedge α).calc_wealth - s.curr_wealth)
            / s.curr_wealth] := rfl
  rw [hs, ht, calc_mean_append_singleton, h, calc_mean_mul_length]

/-- A returning call is either a returning quote, which leaves every member
but the snapshot, delta and the two risk values alone, or a settlement. -/
theorem step_eq_some (fns : MathFns α) (s s1 : MMHedge α) (c : Call α)
    (h : step fns s c = some s1) :
    (s1.trade_returns = s.trade_returns ∧ s1.unfilled_history = s.unfilled_history ∧
        s1.strat_mean = s.strat_mean ∧ s1.time_delta = s.time_delta ∧
        ∀ cs, settlements (c :: cs) = settlements cs) ∨
      (∃ u pv cash : α, s1 = s.update_returns u pv cash ∧
        ∀ cs, settlements (c :: cs) = settlements cs + 1) := by
  cases c with
  | update_position o a b nb na pp v nf pf =>
    left
    obtain ⟨out, ho, rfl⟩ := Option.map_eq_some'.mp h
    rw [update_position_frame fns s o a b nb na pp v nf pf out ho]
    exact ⟨rfl, rfl, rfl, rfl, fun _ => rfl⟩
  | update_returns u pv cash =>
    right
    cases h
    exact ⟨u, pv, cash, rfl, fun _ => rfl⟩

/-- One returning call keeps `strat_mean` equal to `calc_mean trade_returns`. -/
theorem step_mean (fns : MathFns α) (s s1 : MMHedge α) (c : Call α)
    (hs : step fns s c = some s1) (h : s.strat_mean = calc_mean s.trade_returns) :
    s1.strat_mean = calc_mean s1.trade_returns := by
  rcases step_eq_some fns s s1 c hs with ⟨h1, -, h3, -, -⟩ | ⟨u, pv, cash, rfl, -⟩
  · rw [h1, h3]
    exact h
  · exact update_returns_mean s u pv cash h

/-- A returning run keeps `strat_mean` equal to `calc_mean trade_returns`. -/
theorem run_mean (fns : MathFns α) (calls : List (Call α)) :
    ∀ s sN : MMHedge α, run fns s calls = some sN →
      s.strat_mean = calc_mean s.trade_returns →
      sN.strat_mean = calc_mean sN.trade_returns := by
  induction calls with
  | nil =>
    intro s sN hrun h
    cases hrun
    exact h
  | cons c cs ih =>
    intro s sN hrun h
    obtain ⟨s1, hs1, hrest⟩ := Option.bind_eq_some.mp hrun
    exact ih s1 sN hrest (step_mean fns s s1 c hs1 h)

/-- Lengths of both histories after a returning run: each grows by the number
of settlements. -/
theorem run_lengths (fns : MathFns α) (calls : List (Call α)) :
    ∀ s sN : MMHedge α, run fns s calls = some sN →
      sN.trade_returns.length = s.trade_returns.length + settlements calls ∧
        sN.unfilled_history.length = s.unfilled_history.length + settlements calls := by
  induction calls with
  | nil =>
    intro s sN hrun
    cases hrun
    exact ⟨rfl, rfl⟩
  | cons c cs ih =>
    intro s sN hrun
    obtain ⟨s1, hs1, hrest⟩ := Option.bind_eq_some.mp hrun
    obtain ⟨h1, h2⟩ := ih s1 sN hrest
    rw [h1, h2]
    rcases step_eq_some fns s s1 c hs1 with ⟨e1, e2, -, -, e5⟩ | ⟨u, pv, cash, rfl, e5⟩
    · rw [e1, e2, e5 cs]
      exact ⟨rfl, rfl⟩
    · rw [e5 cs]
      have l1 : (s.update_returns u pv cash).trade_returns.length
          = s.trade_returns.length + 1 := by
        show (s.trade_returns ++ [_]).length = _
        simp
      have l2 : (s.update_returns u pv cash).unfilled_history.length
          = s.unfilled_history.length + 1 := by
        show (s.unfilled_history ++ [_]).length = _
        simp
      rw [l1, l2]
      constructor <;> omega

/-- A run returns whenever the cycle length is not zero. -/
theorem run_returns_of_time_delta (fns : MathFns α) (calls : List (Call α)) :
    ∀ s : MMHedge α, s.time_delta ≠ 0 → ∃ sN, run fns s calls = some sN := by
  induction calls with
  | nil => intro s _; exact ⟨s, rfl⟩
  | cons c cs ih =>
    intro s h
    have hstep : ∃ s1, step fns s c = some s1 ∧ s1.time_delta ≠ 0 := by
      cases c with
      | update_position o a b nb na pp v nf pf =>
        obtain ⟨out, ho⟩ := update_position_returns_of_time_delta fns s o a b nb na pp v nf pf h
        refine ⟨out.2, ?_, ?_⟩
        · show (s.update_position fns o a b nb na pp v nf pf).map Prod.snd = some out.2
          rw [ho]
          rfl
        · rw [update_position_frame fns s o a b nb na pp v nf pf out ho]
          exact h
      | update_returns u pv cash => exact ⟨_, rfl, h⟩
    obtain ⟨s1, hs1, ht1⟩ := hstep
    obtain ⟨sN, hsN⟩ := ih s1 ht1
    refine ⟨sN, ?_⟩
    show (step fns s c).bind (fun s1 => run fns s1 cs) = some sN
    rw [hs1]
    exact hsN

/-- C1: along every returning run from construction, `strat_mean` is the
arithmetic mean of `trade_returns`. With `n` the number of settlements so far,
`trade_returns` has `n` entries; `strat_mean` is `0` while `n = 0` (the vector
is then empty) and `(sum of trade_returns) / trade_returns.size()` once
`n > 0`. -/
theorem strat_mean_is_arithmetic_mean [FloorRing α] (fns : MathFns α) (mem : MMHedge α)
    (perp_value_ opening_perp_price_ opening_hedge_pos_ opening_cash_
      opening_oracle_price_ maker_fee_ warmup_ warmup_risk_ : α)
    (time_delta_ : Int) (order_book_risk_cof_ : α) (calls : List (Call α))
    (sN : MMHedge α)
    (hrun : run fns (construct mem perp_value_ opening_perp_price_ opening_hedge_pos_
      opening_cash_ opening_oracle_price_ maker_fee_ warmup_ warmup_risk_ time_delta_
      order_book_risk_cof_) calls = some sN) :
    sN.trade_returns.length = settlements calls ∧
      sN.strat_mean =
        if settlements calls = 0 then 0
        else sN.trade_returns.sum / (sN.trade_returns.length : α) := by
  generalize hs0 : construct mem perp_value_ opening_perp_price_ opening_hedge_pos_ opening_cash_
    opening_oracle_price_ maker_fee_ warmup_ warmup_risk_ time_delta_ order_book_risk_cof_ = s0
    at hrun
  have hlist : s0.trade_returns = [] := by rw [← hs0]; rfl
  have hmean0 : s0.strat_mean = calc_mean s0.trade_returns := by
    rw [hlist, ← hs0]; rfl
  have hlen : sN.trade_returns.length = settlements calls := by
    rw [(run_lengths fns calls s0 sN hrun).1, hlist]
    simp
  have hmean := run_mean fns calls s0 sN hrun hmean0
  refine ⟨hlen, ?_⟩
  rw [hmean]
  unfold calc_mean
  by_cases hz : settlements calls = 0
  · have hnil : sN.trade_returns = [] := List.length_eq_zero.mp (hlen.trans hz)
    rw [if_pos hz, hnil]
    rfl
  · have hne : sN.trade_returns.isEmpty = false := by
      cases hl : sN.trade_returns with
      | nil => rw [hl] at hlen; exact absurd hlen.symm hz
      | cons x xs => rfl
    rw [if_neg hz, hne]
    rfl

/-- Witness for C1: the engine `quote_example` driven through a quote, a
settlement, a second quote and a second settlement ends with two recorded
returns whose mean is `strat_mean`. -/
theorem strat_mean_is_arithmetic_mean_witness :
    ∃ sN, run ⟨Real.log, Real.sqrt⟩ (quote_example ℝ)
        [Call.update_position 100 50 50 1 1 0 0 0 0, Call.update_returns 1 0 3,
          Call.update_position 100 51 49 1 1 0 0 0 0, Call.update_returns 0 0 4] = some sN ∧
      sN.trade_returns.length = 2 ∧
      sN.strat_mean = sN.trade_returns.sum / (sN.trade_returns.length : ℝ) := by
  obtain ⟨sN, hsN⟩ := run_returns_of_time_delta ⟨Real.log, Real.sqrt⟩
    [Call.update_position 100 50 50 1 1 0 0 0 0, Call.update_returns 1 0 3,
      Call.update_position 100 51 49 1 1 0 0 0 0, Call.update_returns 0 0 4]
    (quote_example ℝ) (by decide)
  have h := strat_mean_is_arithmetic_mean ⟨Real.log, Real.sqrt⟩ (zero_mem ℝ)
    0 0 3 2 100 0 0 1 60 1 _ sN hsN
  exact ⟨sN, hsN, h.1, h.2⟩

/-- C9: both histories are empty at construction, `update_returns` appends
exactly one element to each, a returning `update_position` changes neither, and
after every returning run from construction
`trade_returns.size() == unfilled_history.size()`. -/
theorem histories_same_length [FloorRing α] (fns : MathFns α) (mem : MMHedge α)
    (perp_value_ opening_perp_price_ opening_hedge_pos_ opening_cash_
      opening_oracle_price_ maker_fee_ warmup_ warmup_risk_ : α)
    (time_delta_ : Int) (order_book_risk_cof_ : α) (calls : List (Call α)) :
    (construct mem perp_value_ opening_perp_price_ opening_hedge_pos_ opening_cash_
        opening_oracle_price_ maker_fee_ warmup_ warmup_risk_ time_delta_
        order_book_risk_cof_).trade_returns = [] ∧
      (construct mem perp_value_ opening_perp_price_ opening_hedge_pos_ opening_cash_
        opening_oracle_price_ maker_fee_ warmup_ warmup_risk_ time_delta_
        order_book_risk_cof_).unfilled_history = [] ∧
      (∀ (s : MMHedge α) (u pv c : α),
        (s.update_returns u pv c).trade_returns.length = s.trade_returns.length + 1 ∧
          (s.update_returns u pv c).unfilled_history.length = s.unfilled_history.length + 1) ∧
      (∀ (s : MMHedge α) (o a b nb na pp v nf pf : α) (out : List (Position α) × MMHedge α),
        s.update_position fns o a b nb na pp v nf pf = some out →
          out.2.trade_returns = s.trade_returns ∧
            out.2.unfilled_history = s.unfilled_history) ∧
      ∀ sN, run fns (construct mem perp_value_ opening_perp_price_ opening_hedge_pos_
          opening_cash_ opening_oracle_price_ maker_fee_ warmup_ warmup_risk_ time_delta_
          order_book_risk_cof_) calls = some sN →
        sN.trade_returns.length = sN.unfilled_history.length := by
  refine ⟨rfl, rfl, ?_, ?_, ?_⟩
  · intro s u pv c
    constructor
    · show (s.trade_returns ++ [_]).length = _
      simp
    · show (s.unfilled_history ++ [_]).length = _
      simp
  · intro s o a b nb na pp v nf pf out ho
    rw [update_position_frame fns s o a b nb na pp v nf pf out ho]
    exact ⟨rfl, rfl⟩
  · intro sN hrun
    have hl := run_lengths fns calls _ sN hrun
    rw [hl.1, hl.2]
    rfl

/-- Witness for C9: the engine `quote_example` driven through a quote, a
settlement and a second quote holds one entry in each history. -/
theorem histories_same_length_witness :
    ∃ sN, run ⟨Real.log, Real.sqrt⟩ (quote_example ℝ)
        [Call.update_position 100 50 50 1 1 0 0 0 0, Call.update_returns 1 0 3,
          Call.update_position 100 51 49 1 1 0 0 0 0] = some sN ∧
      sN.trade_returns.length = sN.unfilled_history.length := by
  obtain ⟨sN, hsN⟩ := run_returns_of_time_delta ⟨Real.log, Real.sqrt⟩
    [Call.update_position 100 50 50 1 1 0 0 0 0, Call.update_returns 1 0 3,
      Call.update_position 100 51 49 1 1 0 0 0 0]
    (quote_example ℝ) (by decide)
  exact ⟨sN, hsN,
    (histories_same_length ⟨Real.log, Real.sqrt⟩ (zero_mem ℝ) 0 0 3 2 100 0 0 1 60 1
      _).2.2.2.2 sN hsN⟩

/-! ## Order-book risk coefficient -/

/-- Value of `order_book_risk_cof` after `update_order_book_risk`. -/
theorem update_order_book_risk_cof (s : MMHedge α) :
    s.update_order_book_risk.order_book_risk_cof =
      if (s.unfilled_history.length : α) > (s.warmup : α) then
        if calc_mean s.unfilled_history > 3 / 100 then s.order_book_risk_cof + 1 / 100
        else if calc_mean s.unfilled_history < 1 / 100 then s.order_book_risk_cof - 1 / 100
        else s.order_book_risk_cof
      else s.order_book_risk_cof := by
  unfold update_order_book_risk MAX_ORDER_BOOK_UNFILLED MIN_ORDER_BOOK_UNFILLED
  dsimp only
  split_ifs <;> rfl

/-- The object a returning `update_position` hands to `update_order_book_risk`
has the history, warmup and coefficient of the object the call started from. -/
theorem update_position_before_risk (fns : MathFns α) (s s2 : MMHedge α)
    (o a b nb na pp v nf pf : α)
    (hs2 : ((s.load_snapshot o a b nb na pp v nf pf).update_optimal_perp_delta
      ).update_inventory_risk fns = some s2) :
    s2.unfilled_history = s.unfilled_history ∧ s2.warmup = s.warmup ∧
      s2.order_book_risk_cof = s.order_book_risk_cof := by
  rw [update_inventory_risk_frame fns _ s2 hs2, update_optimal_perp_delta_frame]
  exact ⟨rfl, rfl, rfl⟩


/-- Comparison of a vector size with the `int` warmup, after both are
converted to `float`, is the integer comparison. -/
theorem size_gt_warmup_iff (n : Nat) (w : Int) : ((n : α) > (w : α)) ↔ (n : Int) > w := by
  rw [gt_iff_lt, gt_iff_lt, ← Int.cast_natCast n, Int.cast_lt]

/-- C5: `order_book_risk_cof` changes only in `update_position`, by the
hysteresis rule. With `m` the mean of `unfilled_history` (as `calc_mean`
computes it: the sum over the size, for a non-empty history), one returning
`update_position` call yields `old + 0.01` if `unfilled_history.size() > warmup`
and `m > 0.03`, `old - 0.01` if `unfilled_history.size() > warmup` and
`m < 0.01`, and `old` otherwise; it is `old` whenever
`unfilled_history.size() <= warmup`; and `update_returns` leaves it unchanged. -/
theorem order_book_risk_cof_hysteresis (fns : MathFns α) (s : MMHedge α)
    (o a b nb na pp v nf pf u pv c : α) :
    (∀ out, s.update_position fns o a b nb na pp v nf pf = some out →
        (out.2.order_book_risk_cof =
            if (s.unfilled_history.length : Int) > s.warmup then
              if calc_mean s.unfilled_history > 3 / 100 then s.order_book_risk_cof + 1 / 100
              else if calc_mean s.unfilled_history < 1 / 100 then
                s.order_book_risk_cof - 1 / 100
              else s.order_book_risk_cof
            else s.order_book_risk_cof) ∧
          ((s.unfilled_history.length : Int) ≤ s.warmup →
            out.2.order_book_risk_cof = s.order_book_risk_cof)) ∧
      (s.unfilled_history ≠ [] →
        calc_mean s.unfilled_history
          = s.unfilled_history.sum / (s.unfilled_history.length : α)) ∧
      (s.update_returns u pv c).order_book_risk_cof = s.order_book_risk_cof := by
  have hmain : ∀ out, s.update_position fns o a b nb na pp v nf pf = some out →
      out.2.order_book_risk_cof =
        if (s.unfilled_history.length : Int) > s.warmup then
          if calc_mean s.unfilled_history > 3 / 100 then s.order_book_risk_cof + 1 / 100
          else if calc_mean s.unfilled_history < 1 / 100 then s.order_book_risk_cof - 1 / 100
          else s.order_book_risk_cof
        else s.order_book_risk_cof := by
    intro out ho
    obtain ⟨s2, hs2, hout⟩ := update_position_snd fns s o a b nb na pp v nf pf out ho
    obtain ⟨h1, h2, h3⟩ := update_position_before_risk fns s s2 o a b nb na pp v nf pf hs2
    rw [hout, update_order_book_risk_cof, h1, h2, h3]
    by_cases hw : (s.unfilled_history.length : Int) > s.warmup
    · rw [if_pos hw, if_pos ((size_gt_warmup_iff _ _).mpr hw)]
    · rw [if_neg hw, if_neg (fun hc => hw ((size_gt_warmup_iff _ _).mp hc))]
  refine ⟨fun out ho => ⟨hmain out ho, fun hle => ?_⟩, ?_, rfl⟩
  · rw [hmain out ho, if_neg (not_lt.mpr hle)]
  · intro hne
    unfold calc_mean
    cases hl : s.unfilled_history with
    | nil => exact absurd hl hne
    | cons x xs => rfl

/-- Witness for C5: the engine `order_size_example 1` (warmup `0`, coefficient
`1`) after the settlement `update_returns(1, 0, 2)` holds the unfilled ratio
`1`; its next quote returns and raises the coefficient to `1 + 1/100`. -/
theorem order_book_risk_cof_hysteresis_witness :
    ∃ out, ((order_size_example ℝ 1).update_returns 1 0 2).update_position
        ⟨Real.log, Real.sqrt⟩ 100 50 50 1 1 0 0 0 0 = some out ∧
      out.2.order_book_risk_cof = 1 + 1 / 100 := by
  obtain ⟨out, ho⟩ := update_position_returns_of_time_delta ⟨Real.log, Real.sqrt⟩
    ((order_size_example ℝ 1).update_returns 1 0 2) 100 50 50 1 1 0 0 0 0 (by decide)
  have h := ((order_book_risk_cof_hysteresis ⟨Real.log, Real.sqrt⟩
    ((order_size_example ℝ 1).update_returns 1 0 2) 100 50 50 1 1 0 0 0 0 0 0 0).1 out ho).1
  refine ⟨out, ho, ?_⟩
  rw [h]
  norm_num [order_size_example, quote_example, construct, zero_mem, float_to_int, INT_MIN,
    INT_MAX, update_returns, update_trade_returns, calc_mean, calc_wealth]

/-! ## Quote phase -/


/-- C2 (evaluation at the failing input): two engines that differ only in the
value held by `total_order_size` (`1` and `2`) still hold `1` and `2` after the
same `update_position` call, and the following `update_returns(1, 0, 2)` records
the unfilled ratios `1/1` and `1/2`: the quote does not write
`total_order_size`. -/
theorem update_position_keeps_total_order_size :
    ((order_size_example ℝ 1).update_position ⟨Real.log, Real.sqrt⟩
        100 50 50 1 1 0 0 0 0).map (fun out => out.2.total_order_size) = some 1 ∧
      ((order_size_example ℝ 2).update_position ⟨Real.log, Real.sqrt⟩
        100 50 50 1 1 0 0 0 0).map (fun out => out.2.total_order_size) = some 2 ∧
      ((order_size_example ℝ 1).update_position ⟨Real.log, Real.sqrt⟩
        100 50 50 1 1 0 0 0 0).map (fun out => (out.2.update_returns 1 0 2).unfilled_history)
        = some [1 / 1] ∧
      ((order_size_example ℝ 2).update_position ⟨Real.log, Real.sqrt⟩
        100 50 50 1 1 0 0 0 0).map (fun out => (out.2.update_returns 1 0 2).unfilled_history)
        = some [1 / 2] := by
  obtain ⟨out1, ho1⟩ := update_position_returns_of_time_delta ⟨Real.log, Real.sqrt⟩
    (order_size_example ℝ 1) 100 50 50 1 1 0 0 0 0 (by decide)
  obtain ⟨out2, ho2⟩ := update_position_returns_of_time_delta ⟨Real.log, Real.sqrt⟩
    (order_size_example ℝ 2) 100 50 50 1 1 0 0 0 0 (by decide)
  have h1 := update_position_frame _ _ _ _ _ _ _ _ _ _ _ out1 ho1
  have h2 := update_position_frame _ _ _ _ _ _ _ _ _ _ _ out2 ho2
  rw [ho1, ho2]
  simp only [Option.map_some']
  rw [h1, h2]
  exact ⟨rfl, rfl, rfl, rfl⟩

/-! ## Zero book depth -/

/-- C6 (amended): for every engine state and every snapshot with
`num_bids + num_asks = 0`, `update_position` signals no `DivisionByZero`
condition: `calc_mid_market_price` divides by `total_orders = 0` without a
check. The call returns unless the integer division of `calc_strat_annualized`
kills it (`trade_returns.size() > warmup` and `time_delta = 0`), and whenever it
returns it hands back the usual two proposals, short first and long second,
with one common classification. The values computed from the zero-denominator
quotient are not characterised. -/
theorem update_position_zero_depth (fns : MathFns α) (s : MMHedge α)
    (o a b nb na pp v nf pf : α) (h : nb + na = 0) :
    (s.load_snapshot o a b nb na pp v nf pf).num_bids
        + (s.load_snapshot o a b nb na pp v nf pf).num_asks = 0 ∧
      ((∃ out, s.update_position fns o a b nb na pp v nf pf = some out) ↔
        ¬ ((s.trade_returns.length : α) > (s.warmup : α) ∧ s.time_delta = 0)) ∧
      ∀ out, s.update_position fns o a b nb na pp v nf pf = some out →
        ∃ short long : Position α,
          out.1 = [short, long] ∧ short.direction = "short" ∧ long.direction = "long" ∧
            short.trade_type = long.trade_type := by
  refine ⟨h, update_position_returns_iff fns s o a b nb na pp v nf pf, ?_⟩
  intro out ho
  obtain ⟨l, -, hfst, -⟩ := update_position_eq_some fns s o a b nb na pp v nf pf out ho
  exact ⟨_, _, hfst, rfl, rfl, rfl⟩

/-- Witness for C6: the engine `quote_example` (cycle of `60` seconds) quoting
on an empty book returns two proposals; the engine `zero_cycle_example` (cycle
of `0` seconds, warmup `0`) quoting on the same empty book after one settlement
is killed. -/
theorem update_position_zero_depth_witness :
    (0 : ℝ) + 0 = 0 ∧
      (∃ out, (quote_example ℝ).update_position ⟨Real.log, Real.sqrt⟩
          100 101 99 0 0 0 (1 / 10) 0 0 = some out ∧
        out.1.map Position.direction = ["short", "long"]) ∧
      ¬ ∃ out, ((zero_cycle_example ℝ).update_returns 1 0 3).update_position
          ⟨Real.log, Real.sqrt⟩ 100 101 99 0 0 0 (1 / 10) 0 0 = some out := by
  have h := update_position_zero_depth ⟨Real.log, Real.sqrt⟩ (quote_example ℝ)
    100 101 99 0 0 0 (1 / 10) 0 0 (by norm_num)
  have hk := update_position_zero_depth ⟨Real.log, Real.sqrt⟩
    ((zero_cycle_example ℝ).update_returns 1 0 3) 100 101 99 0 0 0 (1 / 10) 0 0 (by norm_num)
  obtain ⟨out, ho⟩ := h.2.1.mpr (fun hc => absurd hc.2 (by decide))
  obtain ⟨short, long, hlist, hs, hl, -⟩ := h.2.2 out ho
  refine ⟨by norm_num, ⟨out, ho, ?_⟩, ?_⟩
  · rw [hlist]
    simp [hs, hl]
  · intro hex
    refine hk.2.1.mp hex ⟨?_, rfl⟩
    norm_num [zero_cycle_example, settle_example, zero_mem, update_returns,
      update_trade_returns]

/-- Counterexample to C6 as stated: on the snapshot with `num_bids = 0` and
`num_asks = 0` (oracle `100`, ask `101`, bid `99`, volatility `1/10`) the
engine `quote_example` does not fail; `update_position` returns two proposals,
a short one and a long one. -/
theorem update_position_zero_depth_returns :
    ((quote_example ℝ).update_position ⟨Real.log, Real.sqrt⟩
        100 101 99 0 0 0 (1 / 10) 0 0).map (fun out => out.1.map Position.direction)
      = some ["short", "long"] := by
  obtain ⟨out, ho⟩ := update_position_returns_of_time_delta ⟨Real.log, Real.sqrt⟩
    (quote_example ℝ) 100 101 99 0 0 0 (1 / 10) 0 0 (by decide)
  obtain ⟨l, -, hfst, -⟩ := update_position_eq_some _ _ _ _ _ _ _ _ _ _ _ out ho
  rw [ho]
  simp only [Option.map_some']
  rw [hfst]
  rfl

/-! ## Mid-market price -/

/-- C12: with `num_bids + num_asks ≠ 0`, `calc_mid_market_price` is the
depth-weighted average `(num_bids*bid_price + num_asks*ask_price) /
(num_bids + num_asks)`; for a snapshot with `num_bids = 3`, `bid_price = 100`,
`num_asks = 1`, `ask_price = 104` loaded into any object it is exactly `101`. -/
theorem calc_mid_market_price_spec (s : MMHedge α) (o pp v nf pf : α)
    (_h : s.num_bids + s.num_asks ≠ 0) :
    s.calc_mid_market_price
        = (s.num_bids * s.bid_price + s.num_asks * s.ask_price) / (s.num_bids + s.num_asks) ∧
      (s.load_snapshot o 104 100 3 1 pp v nf pf).calc_mid_market_price = 101 := by
  refine ⟨rfl, ?_⟩
  show ((3 : α) * 100 + 1 * 104) / (3 + 1) = 101
  norm_num

/-- Witness for C12: three bids at `100` and one ask at `104`. -/
theorem calc_mid_market_price_spec_witness :
    (mid_example ℚ).num_bids + (mid_example ℚ).num_asks ≠ 0 ∧
      (mid_example ℚ).calc_mid_market_price = 101 := by
  have hne : (mid_example ℚ).num_bids + (mid_example ℚ).num_asks ≠ 0 := by
    norm_num [mid_example, load_snapshot, zero_mem]
  have h := (calc_mid_market_price_spec (mid_example ℚ) 0 0 0 0 0 hne).1
  refine ⟨hne, ?_⟩
  rw [h]
  norm_num [mid_example, load_snapshot, zero_mem]

/-! ## Limit and no-trade branches of the sizing -/

/-- C14: two-sided limit branch of `calc_pos_sizes`. With
`|optimal_perp_delta| <= total_offer_volume` and
`ask_offer_price - bid_offer_price > maker_fee` the classification is "limit",
`bid_size = total_offer_volume/2 + optimal_perp_delta`,
`ask_size = total_offer_volume/2 - optimal_perp_delta`, and the two sizes add
up to `total_offer_volume`. -/
theorem calc_pos_sizes_two_sided_limit (s : MMHedge α)
    (total_offer_volume bid_offer_price ask_offer_price : α)
    (hd : |s.optimal_perp_delta| ≤ total_offer_volume)
    (hf : ask_offer_price - bid_offer_price > s.maker_fee) :
    (s.calc_pos_sizes total_offer_volume bid_offer_price ask_offer_price).trade_type = "limit" ∧
      (s.calc_pos_sizes total_offer_volume bid_offer_price ask_offer_price).bid_size
        = total_offer_volume / 2 + s.optimal_perp_delta ∧
      (s.calc_pos_sizes total_offer_volume bid_offer_price ask_offer_price).ask_size
        = total_offer_volume / 2 - s.optimal_perp_delta ∧
      (s.calc_pos_sizes total_offer_volume bid_offer_price ask_offer_price).bid_size
          + (s.calc_pos_sizes total_offer_volume bid_offer_price ask_offer_price).ask_size
        = total_offer_volume := by
  unfold calc_pos_sizes
  dsimp only
  rw [if_neg (not_lt.mpr hd), if_pos hf]
  refine ⟨rfl, rfl, rfl, ?_⟩
  show total_offer_volume / 2 + s.optimal_perp_delta
      + (total_offer_volume / 2 - s.optimal_perp_delta) = total_offer_volume
  ring

/-- Witness for C14: delta `1`, total offer volume `4`, offers `10` and `12`
against a maker fee of `1`: sizes `3` (bid) and `1` (ask). -/
theorem calc_pos_sizes_two_sided_limit_witness :
    |(limit_example ℚ).optimal_perp_delta| ≤ 4 ∧
      (12 : ℚ) - 10 > (limit_example ℚ).maker_fee ∧
      ((limit_example ℚ).calc_pos_sizes 4 10 12).trade_type = "limit" ∧
      ((limit_example ℚ).calc_pos_sizes 4 10 12).bid_size = 3 ∧
      ((limit_example ℚ).calc_pos_sizes 4 10 12).ask_size = 1 := by
  have hd : |(limit_example ℚ).optimal_perp_delta| ≤ 4 := by
    norm_num [limit_example, zero_mem]
  have hf : (12 : ℚ) - 10 > (limit_example ℚ).maker_fee := by
    norm_num [limit_example, zero_mem]
  obtain ⟨h1, h2, h3, -⟩ := calc_pos_sizes_two_sided_limit (limit_example ℚ) 4 10 12 hd hf
  refine ⟨hd, hf, h1, ?_, ?_⟩
  · rw [h2]; norm_num [limit_example, zero_mem]
  · rw [h3]; norm_num [limit_example, zero_mem]

/-- C15: one-sided limit branch of `calc_pos_sizes`. With
`|optimal_perp_delta| <= total_offer_volume`,
`ask_offer_price - bid_offer_price <= maker_fee` and `optimal_perp_delta ≠ 0`
the classification is "limit"; a positive delta gives `ask_size = 0` and
`bid_size = total_offer_volume/2 + delta`, a negative delta gives
`bid_size = 0` and `ask_size = total_offer_volume/2 - delta`. -/
theorem calc_pos_sizes_one_sided_limit (s : MMHedge α)
    (total_offer_volume bid_offer_price ask_offer_price : α)
    (hd : |s.optimal_perp_delta| ≤ total_offer_volume)
    (hf : ask_offer_price - bid_offer_price ≤ s.maker_fee)
    (hz : s.optimal_perp_delta ≠ 0) :
    (s.calc_pos_sizes total_offer_volume bid_offer_price ask_offer_price).trade_type = "limit" ∧
      (0 < s.optimal_perp_delta →
        (s.calc_pos_sizes total_offer_volume bid_offer_price ask_offer_price).ask_size = 0 ∧
          (s.calc_pos_sizes total_offer_volume bid_offer_price ask_offer_price).bid_size
            = total_offer_volume / 2 + s.optimal_perp_delta) ∧
      (s.optimal_perp_delta < 0 →
        (s.calc_pos_sizes total_offer_volume bid_offer_price ask_offer_price).bid_size = 0 ∧
          (s.calc_pos_sizes total_offer_volume bid_offer_price ask_offer_price).ask_size
            = total_offer_volume / 2 - s.optimal_perp_delta) := by
  unfold calc_pos_sizes
  dsimp only
  rw [if_neg (not_lt.mpr hd), if_neg (not_lt.mpr hf), if_pos (abs_pos.mpr hz)]
  by_cases hpos : s.optimal_perp_delta > 0
  · rw [if_pos hpos]
    exact ⟨rfl, fun _ => ⟨rfl, rfl⟩, fun hneg => absurd hpos (not_lt.mpr hneg.le)⟩
  · rw [if_neg hpos]
    exact ⟨rfl, fun hp => absurd hp hpos, fun _ => ⟨rfl, rfl⟩⟩

/-- Witness for C15: delta `1`, total offer volume `4`, offers `10` and `21/2`
against a maker fee of `1`: only the bid side is quoted, with size `3`. -/
theorem calc_pos_sizes_one_sided_limit_witness :
    |(limit_example ℚ).optimal_perp_delta| ≤ 4 ∧
      (21 / 2 : ℚ) - 10 ≤ (limit_example ℚ).maker_fee ∧
      (limit_example ℚ).optimal_perp_delta ≠ 0 ∧
      ((limit_example ℚ).calc_pos_sizes 4 10 (21 / 2)).trade_type = "limit" ∧
      ((limit_example ℚ).calc_pos_sizes 4 10 (21 / 2)).ask_size = 0 ∧
      ((limit_example ℚ).calc_pos_sizes 4 10 (21 / 2)).bid_size = 3 := by
  have hd : |(limit_example ℚ).optimal_perp_delta| ≤ 4 := by
    norm_num [limit_example, zero_mem]
  have hf : (21 / 2 : ℚ) - 10 ≤ (limit_example ℚ).maker_fee := by
    norm_num [limit_example, zero_mem]
  have hz : (limit_example ℚ).optimal_perp_delta ≠ 0 := by
    norm_num [limit_example, zero_mem]
  have hp : 0 < (limit_example ℚ).optimal_perp_delta := by
    norm_num [limit_example, zero_mem]
  obtain ⟨h1, h2, -⟩ := calc_pos_sizes_one_sided_limit (limit_example ℚ) 4 10 (21 / 2) hd hf hz
  refine ⟨hd, hf, hz, h1, (h2 hp).1, ?_⟩
  rw [(h2 hp).2]
  norm_num [limit_example, zero_mem]

/-- C16: no-trade branch of `calc_pos_sizes`. The classification is "no_trade"
exactly when `|optimal_perp_delta| <= total_offer_volume`,
`ask_offer_price - bid_offer_price <= maker_fee` and `optimal_perp_delta = 0`;
in that case both sizes are the unmodified default `total_offer_volume/2`. -/
theorem calc_pos_sizes_no_trade_iff (s : MMHedge α)
    (total_offer_volume bid_offer_price ask_offer_price : α) :
    ((s.calc_pos_sizes total_offer_volume bid_offer_price ask_offer_price).trade_type
          = "no_trade" ↔
        |s.optimal_perp_delta| ≤ total_offer_volume ∧
          ask_offer_price - bid_offer_price ≤ s.maker_fee ∧ s.optimal_perp_delta = 0) ∧
      (|s.optimal_perp_delta| ≤ total_offer_volume ∧
          ask_offer_price - bid_offer_price ≤ s.maker_fee ∧ s.optimal_perp_delta = 0 →
        (s.calc_pos_sizes total_offer_volume bid_offer_price ask_offer_price).bid_size
            = total_offer_volume / 2 ∧
          (s.calc_pos_sizes total_offer_volume bid_offer_price ask_offer_price).ask_size
            = total_offer_volume / 2) := by
  have hml : ("market" : String) ≠ "no_trade" := by decide
  have hll : ("limit" : String) ≠ "no_trade" := by decide
  unfold calc_pos_sizes
  dsimp only
  by_cases hm : |s.optimal_perp_delta| > total_offer_volume
  · rw [if_pos hm]
    have hno : ¬ (|s.optimal_perp_delta| ≤ total_offer_volume ∧
        ask_offer_price - bid_offer_price ≤ s.maker_fee ∧ s.optimal_perp_delta = 0) :=
      fun hc => absurd hm (not_lt.mpr hc.1)
    refine ⟨?_, fun hc => absurd hc hno⟩
    by_cases hpos : s.optimal_perp_delta > 0
    · rw [if_pos hpos]
      exact iff_of_false hml hno
    · rw [if_neg hpos]
      exact iff_of_false hml hno
  · rw [if_neg hm]
    by_cases hf : ask_offer_price - bid_offer_price > s.maker_fee
    · rw [if_pos hf]
      have hno : ¬ (|s.optimal_perp_delta| ≤ total_offer_volume ∧
          ask_offer_price - bid_offer_price ≤ s.maker_fee ∧ s.optimal_perp_delta = 0) :=
        fun hc => absurd hf (not_lt.mpr hc.2.1)
      exact ⟨iff_of_false hll hno, fun hc => absurd hc hno⟩
    · rw [if_neg hf]
      by_cases ha : |s.optimal_perp_delta| > 0
      · rw [if_pos ha]
        have hno : ¬ (|s.optimal_perp_delta| ≤ total_offer_volume ∧
            ask_offer_price - bid_offer_price ≤ s.maker_fee ∧ s.optimal_perp_delta = 0) :=
          fun hc => abs_pos.mp ha hc.2.2
        refine ⟨?_, fun hc => absurd hc hno⟩
        by_cases hpos : s.optimal_perp_delta > 0
        · rw [if_pos hpos]
          exact iff_of_false hll hno
        · rw [if_neg hpos]
          exact iff_of_false hll hno
      · rw [if_neg ha]
        have hz : s.optimal_perp_delta = 0 :=
          abs_eq_zero.mp (le_antisymm (not_lt.mp ha) (abs_nonneg _))
        refine ⟨iff_of_true rfl ⟨not_lt.mp hm, not_lt.mp hf, hz⟩, fun _ => ?_⟩
        show total_offer_volume / 2 + s.optimal_perp_delta = total_offer_volume / 2 ∧
          total_offer_volume / 2 - s.optimal_perp_delta = total_offer_volume / 2
        rw [hz]
        exact ⟨add_zero _, sub_zero _⟩

/-! ## Proposals and offer prices -/

/-- The reservation price among the locals of a returning `update_position`
is the mid-market price of the loaded snapshot minus delta times inventory
risk times volatility, the first two as stored in the returned object. -/
theorem update_position_locals_reservation_price (fns : MathFns α) (s : MMHedge α)
    (o a b nb na pp v nf pf : α) (l : QuoteLocals α)
    (hl : s.update_position_locals fns o a b nb na pp v nf pf = some l) :
    l.reservation_price
      = (s.load_snapshot o a b nb na pp v nf pf).calc_mid_market_price
        - l.self.optimal_perp_delta * l.self.inventory_risk * v := by
  obtain ⟨s2, hs2, hself, hres, -⟩ :=
    update_position_locals_eq_some fns s o a b nb na pp v nf pf l hl
  have hv : s2.volitility = v := by
    rw [update_inventory_risk_frame fns _ s2 hs2, update_optimal_perp_delta_frame]
    rfl
  rw [hres, hv, hself, update_order_book_risk_frame]

/-- C17: a returning `update_position` returns exactly two proposals, short
first and long second, with the same `trade_type`. The short proposal has
direction "short", volume `ask_size` and price `reservationPrice + spread/2`;
the long proposal has direction "long", volume `bid_size` and price
`reservationPrice - spread/2`, where `reservationPrice = midMarketPrice -
optimal_perp_delta * inventory_risk * volitility`. Hence
`short.price - long.price = spread` and
`(short.price + long.price)/2 = reservationPrice`. -/
theorem update_position_proposals (fns : MathFns α) (s : MMHedge α)
    (o a b nb na pp v nf pf : α) (out : List (Position α) × MMHedge α)
    (ho : s.update_position fns o a b nb na pp v nf pf = some out) :
    ∃ (l : QuoteLocals α) (short long : Position α),
      s.update_position_locals fns o a b nb na pp v nf pf = some l ∧
        out.1 = [short, long] ∧
        short.trade_type = long.trade_type ∧
        short.direction = "short" ∧
        short.volume = l.trade_sizes.ask_size ∧
        short.price = l.reservation_price + l.optimal_spread / 2 ∧
        long.direction = "long" ∧
        long.volume = l.trade_sizes.bid_size ∧
        long.price = l.reservation_price - l.optimal_spread / 2 ∧
        l.reservation_price
          = (s.load_snapshot o a b nb na pp v nf pf).calc_mid_market_price
            - out.2.optimal_perp_delta * out.2.inventory_risk * v ∧
        short.price - long.price = l.optimal_spread ∧
        (short.price + long.price) / 2 = l.reservation_price := by
  obtain ⟨l, hl, hfst, hsnd⟩ := update_position_eq_some fns s o a b nb na pp v nf pf out ho
  obtain ⟨s2, -, -, -, -, hbid, hask, -, -⟩ :=
    update_position_locals_eq_some fns s o a b nb na pp v nf pf l hl
  have hR := update_position_locals_reservation_price fns s o a b nb na pp v nf pf l hl
  rw [← hsnd] at hR
  refine ⟨l, _, _, hl, hfst, rfl, rfl, rfl, hask, rfl, rfl, hbid, hR, ?_, ?_⟩
  · show l.ask_offer_price - l.bid_offer_price = _
    rw [hask, hbid]
    ring
  · show (l.ask_offer_price + l.bid_offer_price) / 2 = _
    rw [hask, hbid]
    ring

/-- Witness for C17: the engine `quote_example` quoting on bid and ask `50`
returns, and what it returns has the stated shape; in particular the two
prices differ by the spread. -/
theorem update_position_proposals_witness :
    ∃ (out : List (Position ℝ) × MMHedge ℝ) (l : QuoteLocals ℝ) (short long : Position ℝ),
      (quote_example ℝ).update_position ⟨Real.log, Real.sqrt⟩
          100 50 50 1 1 0 0 0 0 = some out ∧
        out.1 = [short, long] ∧ short.direction = "short" ∧ long.direction = "long" ∧
        short.price - long.price = l.optimal_spread := by
  obtain ⟨out, ho⟩ := update_position_returns_of_time_delta ⟨Real.log, Real.sqrt⟩
    (quote_example ℝ) 100 50 50 1 1 0 0 0 0 (by decide)
  obtain ⟨l, short, long, -, hlist, -, hs, -, -, hlo, -, -, -, hdiff, -⟩ :=
    update_position_proposals ⟨Real.log, Real.sqrt⟩ (quote_example ℝ)
      100 50 50 1 1 0 0 0 0 out ho
  exact ⟨out, l, short, long, ho, hlist, hs, hlo, hdiff⟩


/-! ## Optimal perp delta -/

/-- C18: `update_optimal_perp_delta`, with
`x = 1 - (ask_price + bid_price) / (2 * oracle_price)` and `oracle_price ≠ 0`:
for `x < 0` the new delta is `hedge_pos * (x - neg_fund_rate * time_delta / 3600)`,
for `x > 0` it is `hedge_pos * (x + pos_fund_rate * time_delta / 3600)`, and for
`x = 0` it is `0`; `time_delta / 3600` is the exact quotient. -/
theorem update_optimal_perp_delta_spec (s : MMHedge α) (_h : s.oracle_price ≠ 0) :
    (1 - (s.ask_price + s.bid_price) / (2 * s.oracle_price) < 0 →
        s.update_optimal_perp_delta.optimal_perp_delta
          = s.hedge_pos * (1 - (s.ask_price + s.bid_price) / (2 * s.oracle_price)
              - s.neg_fund_rate * ((s.time_delta : α) / 3600))) ∧
      (1 - (s.ask_price + s.bid_price) / (2 * s.oracle_price) > 0 →
        s.update_optimal_perp_delta.optimal_perp_delta
          = s.hedge_pos * (1 - (s.ask_price + s.bid_price) / (2 * s.oracle_price)
              + s.pos_fund_rate * ((s.time_delta : α) / 3600))) ∧
      (1 - (s.ask_price + s.bid_price) / (2 * s.oracle_price) = 0 →
        s.update_optimal_perp_delta.optimal_perp_delta = 0) := by
  have hc : (((SECOND_IN_MIN * MIN_IN_HOUR : Int) : α)) = 3600 := by
    norm_num [SECOND_IN_MIN, MIN_IN_HOUR]
  unfold update_optimal_perp_delta
  dsimp only
  rw [hc]
  refine ⟨fun hx => ?_, fun hx => ?_, fun hx => ?_⟩
  · rw [if_pos hx, mul_div_assoc]
  · rw [if_neg (not_lt.mpr hx.le), if_pos hx, mul_div_assoc]
  · rw [if_neg (by rw [hx]; exact lt_irrefl _), if_neg (by rw [hx]; exact lt_irrefl _)]

/-- Witness for C18: hedge `2`, oracle `100`, ask and bid `101` give
`x = -1/100`; with negative funding rate `9/25` over `100` seconds the delta is
`2 * (-1/100 - 1/100) = -1/25`. -/
theorem update_optimal_perp_delta_spec_witness :
    (delta_example ℚ).oracle_price ≠ 0 ∧
      1 - ((delta_example ℚ).ask_price + (delta_example ℚ).bid_price)
          / (2 * (delta_example ℚ).oracle_price) < 0 ∧
      (delta_example ℚ).update_optimal_perp_delta.optimal_perp_delta = -1 / 25 := by
  have ho : (delta_example ℚ).oracle_price ≠ 0 := by norm_num [delta_example, zero_mem]
  have hx : 1 - ((delta_example ℚ).ask_price + (delta_example ℚ).bid_price)
      / (2 * (delta_example ℚ).oracle_price) < 0 := by
    norm_num [delta_example, zero_mem]
  refine ⟨ho, hx, ?_⟩
  rw [(update_optimal_perp_delta_spec (delta_example ℚ) ho).1 hx]
  norm_num [delta_example, zero_mem]

/-! ## First quote of a fresh engine -/

/-- The classification computed by `calc_pos_sizes`, branch by branch. -/
theorem calc_pos_sizes_trade_type (s : MMHedge α)
    (total_offer_volume bid_offer_price ask_offer_price : α) :
    (s.calc_pos_sizes total_offer_volume bid_offer_price ask_offer_price).trade_type =
      if |s.optimal_perp_delta| > total_offer_volume then "market"
      else if ask_offer_price - bid_offer_price > s.maker_fee then "limit"
      else if |s.optimal_perp_delta| > 0 then "limit"
      else "no_trade" := by
  unfold calc_pos_sizes
  dsimp only
  split_ifs <;> rfl
/-- A constructor argument `warmup_` with `0 <= warmup_ < 2^31` is stored as
its floor, a non-negative 32-bit `int`. -/
theorem float_to_int_nonneg [FloorRing α] (x : α) (h0 : 0 ≤ x) (h1 : x < 2147483648) :
    float_to_int x = ⌊x⌋ ∧ 0 ≤ float_to_int x := by
  have hfl : (0 : Int) ≤ ⌊x⌋ := Int.floor_nonneg.mpr h0
  have hfu : ⌊x⌋ < 2147483648 := Int.floor_lt.mpr (by exact_mod_cast h1)
  have hval : float_to_int x = ⌊x⌋ := by
    unfold float_to_int INT_MIN INT_MAX
    dsimp only
    rw [if_pos h0, if_pos ⟨by omega, by omega⟩]
  exact ⟨hval, hval ▸ hfl⟩

/-- C11 (amended): for an engine constructed with `cash = 1000`,
`perp_value = 0`, `hedge_pos = 0`, `opening_oracle_price = 100`, any
`maker_fee`, `time_delta` and `order_book_risk_cof`, a `warmup` argument with
`0 <= warmup < 2^31` (so that the stored 32-bit `int` is its truncation) and
`warmup_risk >= 0`, the first `update_position` call on the symmetric book
(`num_bids = num_asks = 10`, `bid_price = 99`, `ask_price = 101`,
`oracle_price = 100`, `volitility = 0.1`, zero funding rates) returns, sets
`optimal_perp_delta = 0` and `inventory_risk = warmup_risk`, and both proposals
are classified "limit" when the offer spread exceeds `maker_fee` and
"no_trade" otherwise, never "market". -/
theorem first_quote_round_trip [FloorRing α] (fns : MathFns α) (mem : MMHedge α)
    (opening_perp_price_ maker_fee_ warmup_ warmup_risk_ : α) (time_delta_ : Int)
    (order_book_risk_cof_ pp : α) (hw : 0 ≤ warmup_) (hw2 : warmup_ < 2147483648)
    (hr : 0 ≤ warmup_risk_) :
    ∃ (out : List (Position α) × MMHedge α) (l : QuoteLocals α),
      (construct mem 0 opening_perp_price_ 0 1000 100 maker_fee_ warmup_ warmup_risk_
          time_delta_ order_book_risk_cof_).update_position fns
          100 101 99 10 10 pp (1 / 10) 0 0 = some out ∧
        (construct mem 0 opening_perp_price_ 0 1000 100 maker_fee_ warmup_ warmup_risk_
          time_delta_ order_book_risk_cof_).update_position_locals fns
          100 101 99 10 10 pp (1 / 10) 0 0 = some l ∧
        out.2.optimal_perp_delta = 0 ∧
        out.2.inventory_risk = warmup_risk_ ∧
        ∀ p ∈ out.1,
          p.trade_type ≠ "market" ∧
            p.trade_type =
              if l.ask_offer_price - l.bid_offer_price > maker_fee_ then "limit"
              else "no_trade" := by
  generalize hs0 : construct mem 0 opening_perp_price_ 0 1000 100 maker_fee_ warmup_ warmup_risk_
    time_delta_ order_book_risk_cof_ = s0
  have hhedge : s0.hedge_pos = 0 := by rw [← hs0]; rfl
  have hcash : s0.cash = 1000 := by rw [← hs0]; rfl
  have hfee : s0.maker_fee = maker_fee_ := by rw [← hs0]; rfl
  have hwr : s0.warmup_risk = warmup_risk_ := by rw [← hs0]; rfl
  have hret : s0.trade_returns = [] := by rw [← hs0]; rfl
  have hwarm : s0.warmup = float_to_int warmup_ := by rw [← hs0]; rfl
  have hnonneg : (0 : Int) ≤ s0.warmup := by
    rw [hwarm]
    exact (float_to_int_nonneg warmup_ hw hw2).2
  have hcond : ¬ ((s0.trade_returns.length : α) > (s0.warmup : α)) := by
    rw [hret]
    simp only [List.length_nil, Nat.cast_zero, gt_iff_lt, not_lt]
    exact_mod_cast hnonneg
  obtain ⟨out, ho⟩ := (update_position_returns_iff fns s0 100 101 99 10 10 pp (1 / 10) 0 0).mpr
    (fun hc => hcond hc.1)
  obtain ⟨l, hl, hfst, hsnd⟩ :=
    update_position_eq_some fns s0 100 101 99 10 10 pp (1 / 10) 0 0 out ho
  obtain ⟨s2, hs2, hself, -, -, -, -, htotal, hsizes⟩ :=
    update_position_locals_eq_some fns s0 100 101 99 10 10 pp (1 / 10) 0 0 l hl
  have hframe := update_position_frame fns s0 100 101 99 10 10 pp (1 / 10) 0 0 out ho
  have hd1 : ((s0.load_snapshot 100 101 99 10 10 pp (1 / 10) 0 0).update_optimal_perp_delta
      ).optimal_perp_delta = 0 := by
    unfold update_optimal_perp_delta
    dsimp only
    have hh : (s0.load_snapshot 100 101 99 10 10 pp (1 / 10) 0 0).hedge_pos = 0 := hhedge
    split_ifs
    · show (s0.load_snapshot 100 101 99 10 10 pp (1 / 10) 0 0).hedge_pos * _ = 0
      rw [hh, zero_mul]
    · show (s0.load_snapshot 100 101 99 10 10 pp (1 / 10) 0 0).hedge_pos * _ = 0
      rw [hh, zero_mul]
    · rfl
  have hs2risk : s2.inventory_risk = warmup_risk_ := by
    have hlen : ((s0.load_snapshot 100 101 99 10 10 pp (1 / 10) 0 0).update_optimal_perp_delta
        ).trade_returns = s0.trade_returns := by
      rw [update_optimal_perp_delta_frame]; rfl
    have hwm : ((s0.load_snapshot 100 101 99 10 10 pp (1 / 10) 0 0).update_optimal_perp_delta
        ).warmup = s0.warmup := by
      rw [update_optimal_perp_delta_frame]; rfl
    have hwr2 : ((s0.load_snapshot 100 101 99 10 10 pp (1 / 10) 0 0).update_optimal_perp_delta
        ).warmup_risk = warmup_risk_ := by
      rw [update_optimal_perp_delta_frame]; exact hwr
    have hcond1 : ¬ ((((s0.load_snapshot 100 101 99 10 10 pp (1 / 10) 0 0
        ).update_optimal_perp_delta).trade_returns.length : α)
        > ((((s0.load_snapshot 100 101 99 10 10 pp (1 / 10) 0 0
          ).update_optimal_perp_delta).warmup : Int) : α)) := by
      rw [hlen, hwm]; exact hcond
    unfold update_inventory_risk at hs2
    rw [if_neg hcond1] at hs2
    rw [← Option.some.inj hs2]
    exact hwr2
  have hs2delta : s2.optimal_perp_delta = 0 := by
    rw [update_inventory_risk_frame fns _ s2 hs2]
    exact hd1
  have hdelta : out.2.optimal_perp_delta = 0 := by
    rw [hsnd, hself, update_order_book_risk_frame]
    exact hs2delta
  have hrisk : out.2.inventory_risk = warmup_risk_ := by
    rw [hsnd, hself, update_order_book_risk_frame]
    exact hs2risk
  have hres : l.reservation_price = 100 := by
    rw [update_position_locals_reservation_price fns s0 100 101 99 10 10 pp (1 / 10) 0 0 l hl,
      ← hsnd, hdelta]
    show ((10 : α) * 99 + 10 * 101) / (10 + 10) - 0 * _ * _ = 100
    norm_num
  have hcash2 : out.2.cash = 1000 := by rw [hframe]; exact hcash
  have hna : out.2.num_asks = 10 := by rw [hframe]
  have hnb : out.2.num_bids = 10 := by rw [hframe]
  have htot : 0 ≤ l.total_offer_volume := by
    rw [htotal, ← hsnd, hres]
    show 0 ≤ out.2.inventory_risk
      * min (min out.2.cash (out.2.num_asks * 100)) (out.2.num_bids * 100)
    rw [hrisk, hcash2, hna, hnb]
    apply mul_nonneg hr
    norm_num
  have hfee2 : out.2.maker_fee = maker_fee_ := by
    rw [hframe]; exact hfee
  have htype : l.trade_sizes.trade_type =
      if l.ask_offer_price - l.bid_offer_price > maker_fee_ then "limit" else "no_trade" := by
    rw [hsizes, calc_pos_sizes_trade_type, ← hsnd, hdelta, hfee2, abs_zero,
      if_neg (not_lt.mpr htot), if_neg (lt_irrefl _)]
  have hnm : l.trade_sizes.trade_type ≠ "market" := by
    rw [htype]
    split_ifs <;> decide
  refine ⟨out, l, ho, hl, hdelta, hrisk, ?_⟩
  intro p hp
  rw [hfst] at hp
  simp only [List.mem_cons, List.mem_singleton, List.not_mem_nil, or_false] at hp
  rcases hp with hp | hp <;> (rw [hp]; exact ⟨hnm, htype⟩)

/-- Witness for C11: warmup `0`, warmup risk `1`, coefficient `1`, fee `0`. -/
theorem first_quote_round_trip_witness :
    (0 : ℝ) ≤ 0 ∧ (0 : ℝ) < 2147483648 ∧ (0 : ℝ) ≤ 1 ∧
      ∃ out, (round_trip_example ℝ 1 1).update_position ⟨Real.log, Real.sqrt⟩
          100 101 99 10 10 0 (1 / 10) 0 0 = some out ∧
        out.2.optimal_perp_delta = 0 ∧ out.2.inventory_risk = 1 ∧
        ∀ p ∈ out.1, p.trade_type ≠ "market" := by
  obtain ⟨out, l, ho, -, hd, hrisk, hp⟩ :=
    first_quote_round_trip ⟨Real.log, Real.sqrt⟩ (zero_mem ℝ) 0 0 0 1 60 1 0
      (le_refl 0) (by norm_num) zero_le_one
  exact ⟨le_refl 0, by norm_num, zero_le_one, out, ho, hd, hrisk, fun p hpm => (hp p hpm).1⟩

/-- Counterexample to C11 as stated: the same scenario with the configuration
`warmup_risk = -1` (coefficient `2`, fee `0`, warmup `0`). The delta is `0` and
the total offer volume `-1 * min(1000, 10*100, 10*100) = -1000`, so
`|0| > -1000` and both proposals are classified "market". -/
theorem first_quote_negative_risk_market :
    ((round_trip_example ℝ (-1) 2).update_position ⟨Real.log, Real.sqrt⟩
        100 101 99 10 10 0 (1 / 10) 0 0).map (fun out => out.1.map Position.trade_type)
      = some ["market", "market"] := by
  norm_num [update_position, update_position_locals, round_trip_example, construct, zero_mem,
    load_snapshot, float_to_int, INT_MIN, INT_MAX, calc_reservation_price, calc_spread,
    calc_total_offer, calc_pos_sizes, update_order_book_risk, update_inventory_risk,
    update_optimal_perp_delta, calc_mid_market_price, calc_wealth]

/-! ## Spread -/

/-- The loop of `calc_strat_var` accumulates the sum of the squared deviations
on top of its initial value. -/
theorem foldl_sq_dev (m : α) (l : List α) :
    ∀ init : α, l.foldl (fun acc trade => acc + (m - trade) ^ 2) init
      = init + (l.map (fun trade => (m - trade) ^ 2)).sum := by
  induction l with
  | nil => intro init; simp
  | cons x xs ih =>
    intro init
    rw [List.foldl_cons, ih, List.map_cons, List.sum_cons]
    ring

/-- Value of `calc_strat_var`: the square root of `S / n - 1`, with `S` the
sum of squared deviations from `strat_mean` and `n` the number of returns. -/
theorem calc_strat_var_eq (fns : MathFns α) (s : MMHedge α) :
    s.calc_strat_var fns
      = fns.sqrt ((s.trade_returns.map (fun trade => (s.strat_mean - trade) ^ 2)).sum
          / (s.trade_returns.length : α) - 1) := by
  unfold calc_strat_var
  dsimp only
  rw [foldl_sq_dev, zero_add]

/-- What `update_inventory_risk` does once the number of returns exceeds the
warmup: it is killed when `time_delta = 0`, and otherwise stores the
annualised return, whose exponent is the truncated integer quotient, over twice
the squared variance term. -/
theorem update_inventory_risk_post_warmup (fns : MathFns α) (s : MMHedge α)
    (h : (s.trade_returns.length : α) > (s.warmup : α)) :
    s.update_inventory_risk fns =
      if s.time_delta = 0 then none
      else some { s with inventory_risk :=
        (1 + s.strat_mean) ^ (Int.tdiv 31536000 s.time_delta)
          / (2 * (fns.sqrt ((s.trade_returns.map
              (fun trade => (s.strat_mean - trade) ^ 2)).sum
                / (s.trade_returns.length : α) - 1)) ^ 2) } := by
  unfold update_inventory_risk calc_strat_annualized
  rw [if_pos h, ← calc_strat_var_eq]
  split_ifs <;> rfl


/-- A non-empty list of numbers below `1` sums to less than its length. -/
theorem sum_lt_length (l : List α) (hne : l ≠ []) (h : ∀ x ∈ l, x < 1) :
    l.sum < (l.length : α) := by
  induction l with
  | nil => exact absurd rfl hne
  | cons x xs ih =>
    have hx : x < 1 := h x (List.mem_cons_self _ _)
    rw [List.sum_cons, List.length_cons, Nat.cast_succ]
    by_cases hxs : xs = []
    · rw [hxs]
      simp only [List.sum_nil, List.length_nil, Nat.cast_zero]
      linarith
    · have := ih hxs (fun y hy => h y (List.mem_cons_of_mem _ hy))
      linarith

/-- C20: the argument `S / n - 1` of the square root in `calc_strat_var` is
negative whenever `S / n < 1`; for every non-empty return history whose entries
and whose `strat_mean` all lie strictly between `-1/2` and `1/2` this is the
case, so the argument has no square root in the field (no `r` with
`r * r = S / n - 1`), while the post-warmup `inventory_risk` is computed from
`sqrt` of exactly that argument (when `calc_strat_annualized` returns). -/
theorem calc_strat_var_negative_argument (fns : MathFns α) (s : MMHedge α)
    (hne : s.trade_returns ≠ [])
    (hm : -1 / 2 < s.strat_mean ∧ s.strat_mean < 1 / 2)
    (ht : ∀ trade ∈ s.trade_returns, -1 / 2 < trade ∧ trade < 1 / 2) :
    s.calc_strat_var fns
        = fns.sqrt ((s.trade_returns.map (fun trade => (s.strat_mean - trade) ^ 2)).sum
            / (s.trade_returns.length : α) - 1) ∧
      (s.trade_returns.map (fun trade => (s.strat_mean - trade) ^ 2)).sum
          / (s.trade_returns.length : α) < 1 ∧
      (s.trade_returns.map (fun trade => (s.strat_mean - trade) ^ 2)).sum
          / (s.trade_returns.length : α) - 1 < 0 ∧
      (∀ r : α, r * r ≠ (s.trade_returns.map (fun trade => (s.strat_mean - trade) ^ 2)).sum
          / (s.trade_returns.length : α) - 1) ∧
      ((s.trade_returns.length : α) > (s.warmup : α) →
        s.update_inventory_risk fns
          = s.calc_strat_annualized.map fun strat_annualized =>
            { s with inventory_risk := strat_annualized
              / (2 * (fns.sqrt ((s.trade_returns.map
                  (fun trade => (s.strat_mean - trade) ^ 2)).sum
                    / (s.trade_returns.length : α) - 1)) ^ 2) }) := by
  have hlen : (0 : α) < (s.trade_returns.length : α) := by
    have : 0 < s.trade_returns.length := List.length_pos.mpr hne
    exact_mod_cast this
  have hsq : ∀ x ∈ s.trade_returns.map (fun trade => (s.strat_mean - trade) ^ 2), x < 1 := by
    intro x hx
    obtain ⟨trade, htrade, rfl⟩ := List.mem_map.mp hx
    obtain ⟨h1, h2⟩ := ht trade htrade
    obtain ⟨h3, h4⟩ := hm
    have ha : 0 < 1 - (s.strat_mean - trade) := by linarith
    have hb : 0 < 1 + (s.strat_mean - trade) := by linarith
    nlinarith [mul_pos ha hb]
  have hsum : (s.trade_returns.map (fun trade => (s.strat_mean - trade) ^ 2)).sum
      < (s.trade_returns.length : α) := by
    have hne2 : s.trade_returns.map (fun trade => (s.strat_mean - trade) ^ 2) ≠ [] := by
      intro hc
      exact hne (List.map_eq_nil_iff.mp hc)
    have := sum_lt_length _ hne2 hsq
    rwa [List.length_map] at this
  have hlt : (s.trade_returns.map (fun trade => (s.strat_mean - trade) ^ 2)).sum
      / (s.trade_returns.length : α) < 1 := (div_lt_one hlen).mpr hsum
  have hneg : (s.trade_returns.map (fun trade => (s.strat_mean - trade) ^ 2)).sum
      / (s.trade_returns.length : α) - 1 < 0 := by linarith
  refine ⟨calc_strat_var_eq fns s, hlt, hneg, ?_, ?_⟩
  · intro r hr
    have := mul_self_nonneg r
    rw [hr] at this
    exact absurd hneg (not_lt.mpr this)
  · intro hw
    unfold update_inventory_risk
    rw [if_pos hw, ← calc_strat_var_eq]

/-- Witness for C20: the engine `settle_example` after the settlement
`update_returns(1, 0, 3)` holds the single return `1/302` with mean `1/302`;
the argument of the square root is `0 / 1 - 1 = -1`. -/
theorem calc_strat_var_negative_argument_witness :
    ((settle_example ℝ).update_returns 1 0 3).trade_returns = [1 / 302] ∧
      ((settle_example ℝ).update_returns 1 0 3).strat_mean = 1 / 302 ∧
      (((settle_example ℝ).update_returns 1 0 3).trade_returns.map
          (fun trade => (((settle_example ℝ).update_returns 1 0 3).strat_mean - trade) ^ 2)).sum
        / (((settle_example ℝ).update_returns 1 0 3).trade_returns.length : ℝ) - 1 < 0 := by
  have hret : ((settle_example ℝ).update_returns 1 0 3).trade_returns = [1 / 302] := by
    norm_num [update_returns, update_trade_returns, settle_example, zero_mem, calc_wealth]
  have hmean : ((settle_example ℝ).update_returns 1 0 3).strat_mean = 1 / 302 := by
    norm_num [update_returns, update_trade_returns, settle_example, zero_mem, calc_wealth]
  have hne : ((settle_example ℝ).update_returns 1 0 3).trade_returns ≠ [] := by
    rw [hret]; exact List.cons_ne_nil _ _
  have hm : -1 / 2 < ((settle_example ℝ).update_returns 1 0 3).strat_mean ∧
      ((settle_example ℝ).update_returns 1 0 3).strat_mean < 1 / 2 := by
    rw [hmean]; constructor <;> norm_num
  have ht : ∀ trade ∈ ((settle_example ℝ).update_returns 1 0 3).trade_returns,
      -1 / 2 < trade ∧ trade < 1 / 2 := by
    intro trade htrade
    rw [hret, List.mem_singleton] at htrade
    rw [htrade]; constructor <;> norm_num
  exact ⟨hret, hmean,
    (calc_strat_var_negative_argument ⟨Real.log, Real.sqrt⟩
      ((settle_example ℝ).update_returns 1 0 3) hne hm ht).2.2.1⟩

/-- C13 (evaluation at the failing input): the engine `annualized_example`
holds the returns `5` and `1` with mean `3`, warmup `0` and a cycle of
`21024000` seconds, so `31536000 / time_delta` is `3/2` as a real number. The
variance term is `sqrt((4 + 4)/2 - 1) = sqrt 3`. `update_inventory_risk` stores
`(1 + 3)^1 / (2 * 3) = 2/3`, the exponent being the truncated integer quotient
`1`, whereas the real exponent `3/2` gives `(1 + 3)^(3/2) / (2 * 3) = 4/3`. -/
theorem update_inventory_risk_truncates_exponent :
    (annualized_example ℝ).trade_returns = [5, 1] ∧
      (annualized_example ℝ).strat_mean = 3 ∧
      ((annualized_example ℝ).trade_returns.length : ℝ) > ((annualized_example ℝ).warmup : ℝ) ∧
      (31536000 : ℝ) / ((annualized_example ℝ).time_delta : ℝ) = 3 / 2 ∧
      ((annualized_example ℝ).update_inventory_risk ⟨Real.log, Real.sqrt⟩).map
          (fun s2 => s2.inventory_risk) = some (2 / 3) ∧
      (1 + (annualized_example ℝ).strat_mean)
            ^ ((31536000 : ℝ) / ((annualized_example ℝ).time_delta : ℝ))
          / (2 * (Real.sqrt (((annualized_example ℝ).trade_returns.map
              (fun trade => ((annualized_example ℝ).strat_mean - trade) ^ 2)).sum
                / ((annualized_example ℝ).trade_returns.length : ℝ) - 1)) ^ 2)
        = 4 / 3 := by
  have hret : (annualized_example ℝ).trade_returns = [5, 1] := by
    norm_num [annualized_example, update_returns, update_trade_returns, construct, zero_mem,
      calc_wealth]
  have hmean : (annualized_example ℝ).strat_mean = 3 := by
    norm_num [annualized_example, update_returns, update_trade_returns, construct, zero_mem,
      calc_wealth]
  have hwarm : (annualized_example ℝ).warmup = 0 := by
    simp [annualized_example, update_returns, update_trade_returns, construct, float_to_int,
      INT_MIN, INT_MAX]
  have htd : (annualized_example ℝ).time_delta = 21024000 := rfl
  have hgt : ((annualized_example ℝ).trade_returns.length : ℝ)
      > ((annualized_example ℝ).warmup : ℝ) := by
    rw [hret, hwarm]; norm_num
  have harg : ((annualized_example ℝ).trade_returns.map
      (fun trade => ((annualized_example ℝ).strat_mean - trade) ^ 2)).sum
        / ((annualized_example ℝ).trade_returns.length : ℝ) - 1 = 3 := by
    rw [hret, hmean]; norm_num
  have hsqrt : Real.sqrt 3 ^ 2 = 3 := Real.sq_sqrt (by norm_num)
  have hq : (31536000 : ℝ) / ((annualized_example ℝ).time_delta : ℝ) = 3 / 2 := by
    rw [htd]; norm_num
  have hpow : (4 : ℝ) ^ ((3 : ℝ) / 2) = 8 := by
    have h4 : (4 : ℝ) = 2 ^ (2 : ℝ) := by norm_num
    rw [h4, ← Real.rpow_mul (by norm_num : (0 : ℝ) ≤ 2)]
    norm_num
  refine ⟨hret, hmean, hgt, hq, ?_, ?_⟩
  · rw [update_inventory_risk_post_warmup _ _ hgt, harg, hsqrt, hmean, htd,
      if_neg (by decide)]
    have hdiv : Int.tdiv 31536000 21024000 = 1 := by decide
    rw [hdiv]
    simp only [Option.map_some']
    norm_num
  · rw [harg, hsqrt, hq, hmean]
    norm_num [hpow]
end MMHedge
